import Mathlib

/-!
Verification of the vxdraw layer/sprite arena and per-frame buffer
synchronization, shallowly embedded from `src/dyntex.rs` and `src/lib.rs`.

Modelling conventions:

* Every access to a layer's host byte buffer (`mockbuffer : Vec<u8>`) in the
  source is 4-byte aligned and 4 bytes wide (one `f32` or one RGBA8 group), so
  the buffer is embedded at 32-bit word granularity: `Word` is the bit pattern
  of one 4-byte group, and every byte offset of the source appears here divided
  by 4.  A sprite occupies 40 words (4 vertices of 10 words); a vertex is
  `x y depth uv0 uv1 tr0 tr1 rot scale color`.
* IEEE-754 arithmetic on `f32` bit patterns (used only to derive quad corners
  in `add` and to apply deltas in `sprite_translate_all` / `sprite_rotate_all`)
  is abstracted as explicit function parameters (`FOps`): the claims under
  verification are about which words are written where, never about float
  semantics, so the theorems hold for every interpretation of these operations.
* Rust `Vec` indexing and `copy_from_slice` panic when out of bounds; the
  embedded operations return `Option`, `none` meaning a panic.
* `Vec::push` / `Vec::pop` on the free list `removed` are embedded with the
  list HEAD as the top of the stack (most recently pushed element first).
-/

/-- Bit pattern of one 4-byte group (an `f32` or four packed `u8`). -/
abbrev Word := Nat

/-- Abstracted IEEE-754 single-precision operations on bit patterns.
The embedding never interprets them. -/
structure FOps where
  /-- bit pattern of `a + b` -/
  fadd : Word → Word → Word
  /-- bit pattern of `a - b` -/
  fsub : Word → Word → Word
  /-- bit pattern of `-a` -/
  fneg : Word → Word
  /-- bit pattern of `a / 2f32` -/
  fhalf : Word → Word

/-- One 4-byte store `buf[4*i..4*i+4].copy_from_slice(v)`; `none` is the
out-of-bounds panic. -/
def setWord (buf : List Word) (i : Nat) (v : Word) : Option (List Word) :=
  if i < buf.length then some (buf.set i v) else none

/-- A sequence of 4-byte stores, aborting at the first out-of-bounds one. -/
def setWords (buf : List Word) (ws : List (Nat × Word)) : Option (List Word) :=
  match ws with
  | [] => some buf
  | (i, v) :: rest =>
    match setWord buf i v with
    | none => none
    | some b => setWords b rest

/-- One iteration step of the growth loop in `Dyntex::add`:
`while tex.mockbuffer.len() <= idx { tex.mockbuffer.extend([0u8; 4 * 40].iter()) }`
(160 bytes = 40 words per iteration).  The loop is embedded with explicit
fuel; `growBuf` supplies fuel `idx + 1`, which exceeds the number of
iterations since every iteration grows the buffer by 40 words. -/
def growGo : Nat → List Word → Nat → List Word
  | 0, buf, _ => buf
  | fuel + 1, buf, idx =>
    if buf.length ≤ idx then growGo fuel (buf ++ List.replicate 40 0) idx else buf

/-- The growth loop of `Dyntex::add`, at word granularity. -/
def growBuf (buf : List Word) (idx : Nat) : List Word :=
  growGo (idx + 1) buf idx

/-- The per-layer state touched by the sprite operations of `dyntex.rs`
(`SingleTexture` in `data.rs`; the GPU-side handles it also carries are opaque
to every operation modelled here and are omitted). -/
structure SingleTexture where
  hidden : Bool
  count : Nat
  mockbuffer : List Word
  removed : List Nat
  deriving DecidableEq, Repr

/-- The `SingleTexture` pushed by `Dyntex::add_layer`:
`hidden: false, count: 0, mockbuffer: vec![], removed: vec![]`. -/
def SingleTexture.init : SingleTexture :=
  { hidden := false, count := 0, mockbuffer := [], removed := [] }

/-- Tagged references of the Draw-Order List (`DrawType` in `data.rs`). -/
inductive DrawType where
  | StreamingTexture (id : Nat)
  | DynamicTexture (id : Nat)
  | Quad (id : Nat)
  | Text (id : Nat)
  deriving DecidableEq, Repr

/-- The slice of `VxDraw` state the dyntex sprite/layer operations touch:
the `dyntexs` collection and the global draw order.  `destroyed` logs the
`SingleTexture` values handed to `destroy_texture` (which tears down their
GPU resources), so that theorems can speak about destruction. -/
structure VxState where
  dyntexs : List SingleTexture
  draw_order : List DrawType
  destroyed : List SingleTexture
  deriving DecidableEq, Repr

/-- Sprite handle `Handle(usize, usize)`: layer id and slot id. -/
structure Handle where
  layer : Nat
  slot : Nat
  deriving DecidableEq, Repr

/-- The sprite builder (`Sprite` in `dyntex.rs`), fields as f32 bit patterns;
`colors[i]` is the packed RGBA8 group of vertex `i`. -/
structure Sprite where
  width : Word
  height : Word
  depth : Word
  color0 : Word
  color1 : Word
  color2 : Word
  color3 : Word
  uv_begin : Word × Word
  uv_end : Word × Word
  translation : Word × Word
  rotation : Word
  scale : Word
  origin : Word × Word
  deriving DecidableEq, Repr

/-- The ten stores of one vertex record in `Dyntex::add`, word offsets 0..9
from `base` (byte offsets 0,4,...,36 from `idx`). -/
def vertexWrites (base : Nat) (px py dp u0 u1 t0 t1 r sc col : Word) :
    List (Nat × Word) :=
  [(base, px), (base + 1, py), (base + 2, dp), (base + 3, u0), (base + 4, u1),
   (base + 5, t0), (base + 6, t1), (base + 7, r), (base + 8, sc), (base + 9, col)]

/-- The 40 stores of `Dyntex::add` for one sprite at word base `base`: the
corner positions derived from width/height/origin, the corner UVs, and the
broadcast depth/translation/rotation/scale/color fields, in the source's
iteration order (topleft, uv_a), (bottomleft, (ua.0, ub.1)), (bottomright, ub),
(topright, (ub.0, ua.1)). -/
def spriteWrites (fops : FOps) (sprite : Sprite) (base : Nat) : List (Nat × Word) :=
  let w := sprite.width
  let h := sprite.height
  -- topleft = (-width/2 - origin.0, -height/2 - origin.1), etc.
  let tlx := fops.fsub (fops.fhalf (fops.fneg w)) sprite.origin.1
  let tly := fops.fsub (fops.fhalf (fops.fneg h)) sprite.origin.2
  let tpx := fops.fsub (fops.fhalf w) sprite.origin.1
  let tpy := fops.fsub (fops.fhalf (fops.fneg h)) sprite.origin.2
  let blx := fops.fsub (fops.fhalf (fops.fneg w)) sprite.origin.1
  let bly := fops.fsub (fops.fhalf h) sprite.origin.2
  let brx := fops.fsub (fops.fhalf w) sprite.origin.1
  let bry := fops.fsub (fops.fhalf h) sprite.origin.2
  let ua := sprite.uv_begin
  let ub := sprite.uv_end
  let tr := sprite.translation
  vertexWrites base tlx tly sprite.depth ua.1 ua.2 tr.1 tr.2
    sprite.rotation sprite.scale sprite.color0
  ++ vertexWrites (base + 10) blx bly sprite.depth ua.1 ub.2 tr.1 tr.2
    sprite.rotation sprite.scale sprite.color1
  ++ vertexWrites (base + 20) brx bry sprite.depth ub.1 ub.2 tr.1 tr.2
    sprite.rotation sprite.scale sprite.color2
  ++ vertexWrites (base + 30) tpx tpy sprite.depth ub.1 ua.2 tr.1 tr.2
    sprite.rotation sprite.scale sprite.color3

/-- `Dyntex::add`: pop a free slot (else append), grow the host buffer, write
the four vertex records, return the handle.  `s.dyntexs[texture.0]` panics on
a missing layer, hence the leading `none`. -/
def dyntexAdd (fops : FOps) (s : VxState) (texture : Nat) (sprite : Sprite) :
    Option (VxState × Handle) :=
  match s.dyntexs[texture]? with
  | none => none
  | some tex =>
    let (index, tex1) :=
      match tex.removed with
      | v :: rest => (v, { tex with removed := rest })
      | [] => (tex.count, { tex with count := tex.count + 1 })
    let base := index * 40
    let buf0 := growBuf tex1.mockbuffer base
    match setWords buf0 (spriteWrites fops sprite base) with
    | none => none
    | some buf =>
      some ({ s with dyntexs := s.dyntexs.set texture { tex1 with mockbuffer := buf } },
            ⟨texture, index⟩)

/-- `Dyntex::remove_sprite`: when the layer exists, zero the scale word of the
4 vertex records (byte offset 32..36, word offset 8) and push the slot id onto
the free list; a missing layer is silently skipped (`get_mut` returns `None`). -/
def dyntexRemoveSprite (s : VxState) (handle : Handle) : Option VxState :=
  match s.dyntexs[handle.layer]? with
  | none => some s
  | some dyntex =>
    let base := handle.slot * 40
    match setWords dyntex.mockbuffer
        [(base + 8, 0), (base + 18, 0), (base + 28, 0), (base + 38, 0)] with
    | none => none
    | some buf =>
      some { s with
        dyntexs := s.dyntexs.set handle.layer
          { dyntex with mockbuffer := buf, removed := handle.slot :: dyntex.removed } }

/-- `Dyntex::set_position`: layer existence is checked (`get_mut`), slot
existence is NOT; writes word offsets 5 and 6 of the 4 vertex records. -/
def dyntexSetPosition (s : VxState) (handle : Handle) (position : Word × Word) :
    Option VxState :=
  match s.dyntexs[handle.layer]? with
  | none => some s
  | some stex =>
    let base := handle.slot * 40
    match setWords stex.mockbuffer
        [(base + 5, position.1), (base + 6, position.2),
         (base + 15, position.1), (base + 16, position.2),
         (base + 25, position.1), (base + 26, position.2),
         (base + 35, position.1), (base + 36, position.2)] with
    | none => none
    | some buf =>
      some { s with dyntexs := s.dyntexs.set handle.layer { stex with mockbuffer := buf } }

/-- `Dyntex::set_rotation`: layer existence is checked, slot existence is NOT;
writes word offset 7 of the 4 vertex records. -/
def dyntexSetRotation (s : VxState) (handle : Handle) (rotation : Word) :
    Option VxState :=
  match s.dyntexs[handle.layer]? with
  | none => some s
  | some stex =>
    let base := handle.slot * 40
    match setWords stex.mockbuffer
        [(base + 7, rotation), (base + 17, rotation),
         (base + 27, rotation), (base + 37, rotation)] with
    | none => none
    | some buf =>
      some { s with dyntexs := s.dyntexs.set handle.layer { stex with mockbuffer := buf } }

/-- The eight UV stores of `set_uv` / `set_uvs` for one sprite: vertex 0 gets
(begin0, begin1), vertex 1 (begin0, end1), vertex 2 (end0, end1),
vertex 3 (end0, begin1), at word offsets 3 and 4 of each vertex. -/
def uvWrites (base : Nat) (b0 b1 e0 e1 : Word) : List (Nat × Word) :=
  [(base + 3, b0), (base + 4, b1),
   (base + 13, b0), (base + 14, e1),
   (base + 23, e0), (base + 24, e1),
   (base + 33, e0), (base + 34, b1)]

/-- `Dyntex::set_uv`: checks layer existence AND `handle.1 < stex.count`
before writing; out-of-range slots are silently skipped. -/
def dyntexSetUv (s : VxState) (handle : Handle) (uv_begin uv_end : Word × Word) :
    Option VxState :=
  match s.dyntexs[handle.layer]? with
  | none => some s
  | some stex =>
    if handle.slot < stex.count then
      match setWords stex.mockbuffer
          (uvWrites (handle.slot * 40) uv_begin.1 uv_begin.2 uv_end.1 uv_end.2) with
      | none => none
      | some buf =>
        some { s with dyntexs := s.dyntexs.set handle.layer { stex with mockbuffer := buf } }
    else some s

/-- Inner loop of `Dyntex::set_uvs`: `cur` is the first entry's layer id,
`cnt` the borrowed layer's sprite count.  A later entry with a different
layer id is `panic!["The texture handles of each sprite must be identical"]`
(`none`); an out-of-range slot is skipped. -/
def setUvsGo (cur : Nat) (cnt : Nat) (buf : List Word) :
    List (Handle × (Word × Word) × (Word × Word)) → Option (List Word)
  | [] => some buf
  | (h, ub, ue) :: rest =>
    if h.layer ≠ cur then none
    else if h.slot < cnt then
      match setWords buf (uvWrites (h.slot * 40) ub.1 ub.2 ue.1 ue.2) with
      | none => none
      | some b => setUvsGo cur cnt b rest
    else setUvsGo cur cnt buf rest

/-- `Dyntex::set_uvs`: take the first entry; when its layer is missing the
whole call silently does nothing; otherwise write the first entry (if its slot
is in range) and run the inner loop over the remaining entries. -/
def dyntexSetUvs (s : VxState)
    (uvs : List (Handle × (Word × Word) × (Word × Word))) : Option VxState :=
  match uvs with
  | [] => some s
  | (first, ub, ue) :: rest =>
    match s.dyntexs[first.layer]? with
    | none => some s
    | some stex =>
      let step0 : Option (List Word) :=
        if first.slot < stex.count then
          setWords stex.mockbuffer (uvWrites (first.slot * 40) ub.1 ub.2 ue.1 ue.2)
        else some stex.mockbuffer
      match step0 with
      | none => none
      | some buf0 =>
        match setUvsGo first.layer stex.count buf0 rest with
        | none => none
        | some buf =>
          some { s with
            dyntexs := s.dyntexs.set first.layer { stex with mockbuffer := buf } }

/-- One chunk of `sprite_translate_all`: `mockbuffer.chunks_mut(40)` yields
40-BYTE chunks, i.e. one 10-word vertex record; the translation words 5 and 6
(bytes 20..28) get the delta added.  Reading them panics when the (trailing)
chunk is shorter than 7 words. -/
def translChunk (fadd : Word → Word → Word) (dx dy : Word) (chunk : List Word) :
    Option (List Word) :=
  if 7 ≤ chunk.length then
    some ((chunk.set 5 (fadd (chunk.getD 5 0) dx)).set 6 (fadd (chunk.getD 6 0) dy))
  else none

/-- One chunk of `sprite_rotate_all`: rotation word 7 (bytes 28..32) gets the
delta added; panics when the trailing chunk is shorter than 8 words. -/
def rotChunk (fadd : Word → Word → Word) (d : Word) (chunk : List Word) :
    Option (List Word) :=
  if 8 ≤ chunk.length then
    some (chunk.set 7 (fadd (chunk.getD 7 0) d))
  else none

/-- `chunks_mut(40)` iteration (40 bytes = 10 words per chunk), applying `f`
to every chunk.  Embedded with fuel; `chunksAll` supplies the list length,
which exceeds the number of chunks. -/
def chunksGo (f : List Word → Option (List Word)) :
    Nat → List Word → Option (List Word)
  | _, [] => some []
  | 0, _ :: _ => none
  | fuel + 1, buf =>
    match f (buf.take 10), chunksGo f fuel (buf.drop 10) with
    | some c, some rest => some (c ++ rest)
    | _, _ => none

/-- Apply a chunk transform over the whole host buffer. -/
def chunksAll (f : List Word → Option (List Word)) (buf : List Word) :
    Option (List Word) :=
  chunksGo f buf.length buf

/-- `Dyntex::sprite_translate_all`: when the layer exists, every 40-byte chunk
of its host buffer gets the translation delta added (including chunks of
logically removed sprites); a missing layer is silently skipped. -/
def dyntexSpriteTranslateAll (fops : FOps) (s : VxState) (tex : Nat)
    (dxdy : Word × Word) : Option VxState :=
  match s.dyntexs[tex]? with
  | none => some s
  | some stex =>
    match chunksAll (translChunk fops.fadd dxdy.1 dxdy.2) stex.mockbuffer with
    | none => none
    | some buf =>
      some { s with dyntexs := s.dyntexs.set tex { stex with mockbuffer := buf } }

/-- `Dyntex::sprite_rotate_all`: when the layer exists, every 40-byte chunk of
its host buffer gets the rotation delta added; a missing layer is skipped. -/
def dyntexSpriteRotateAll (fops : FOps) (s : VxState) (tex : Nat) (deg : Word) :
    Option VxState :=
  match s.dyntexs[tex]? with
  | none => some s
  | some stex =>
    match chunksAll (rotChunk fops.fadd deg) stex.mockbuffer with
    | none => none
    | some buf =>
      some { s with dyntexs := s.dyntexs.set tex { stex with mockbuffer := buf } }

/-- The linear scan of `Dyntex::remove_layer` (and `Layerable::get_layer`):
index of the first `DynamicTexture { id }` entry matching `id`. -/
def findDynOrder (id : Nat) : List DrawType → Option Nat
  | [] => none
  | DrawType.DynamicTexture i :: rest =>
    if i = id then some 0 else (findDynOrder id rest).map (· + 1)
  | _ :: rest => (findDynOrder id rest).map (· + 1)

/-- `Dyntex::remove_layer`: remove the first matching Draw-Order entry; only
when the layer is the last of its kind (`dyntexs.len() == texture.0 + 1`) pop
it and hand it to `destroy_texture` (logged in `destroyed`).  When the handle
is not in the draw order nothing happens. -/
def dyntexRemoveLayer (s : VxState) (texture : Nat) : VxState :=
  match findDynOrder texture s.draw_order with
  | none => s
  | some idx =>
    let s1 := { s with draw_order := s.draw_order.eraseIdx idx }
    if s1.dyntexs.length = texture + 1 then
      match s1.dyntexs.getLast? with
      | none => s1  -- unreachable: dyntexs.length = texture + 1 > 0
      | some dyntex =>
        { s1 with dyntexs := s1.dyntexs.dropLast,
                  destroyed := s1.destroyed ++ [dyntex] }
    else s1

/-- `Dyntex::add_layer`, restricted to the state modelled here: push a fresh
`SingleTexture` and append its tagged entry to the Draw-Order List, returning
the new layer id (`dyntexs.len() - 1`). -/
def dyntexAddLayer (s : VxState) : VxState × Nat :=
  let s1 := { s with dyntexs := s.dyntexs ++ [SingleTexture.init] }
  ({ s1 with draw_order := s1.draw_order ++ [DrawType.DynamicTexture (s1.dyntexs.length - 1)] },
   s1.dyntexs.length - 1)

/-- `Dyntex::hide`: `self.vx.dyntexs[layer.0].hidden = true` — direct indexing,
panics on an out-of-bounds layer id. -/
def dyntexHide (s : VxState) (layer : Nat) : Option VxState :=
  match s.dyntexs[layer]? with
  | none => none
  | some tex => some { s with dyntexs := s.dyntexs.set layer { tex with hidden := true } }

/-- `Dyntex::show`: `self.vx.dyntexs[layer.0].hidden = false` — direct
indexing, panics on an out-of-bounds layer id. -/
def dyntexShow (s : VxState) (layer : Nat) : Option VxState :=
  match s.dyntexs[layer]? with
  | none => none
  | some tex => some { s with dyntexs := s.dyntexs.set layer { tex with hidden := false } }

/-- Arena well-formedness maintained by the dyntex operations: the host buffer
holds exactly `count` sprite records and every free-list entry is a valid slot. -/
def ArenaInv (tex : SingleTexture) : Prop :=
  tex.mockbuffer.length = 40 * tex.count ∧ ∀ i ∈ tex.removed, i < tex.count

/-!
Frame compositor model (`VxDraw::draw_frame_internal` in `lib.rs`).  This is
the newer layer representation of `lib.rs`, with one host buffer, N in-flight
GPU buffers and one touch counter per attribute stream.  Only the
attribute-stream synchronization walk of the draw-order loop is embedded:
swapchain acquisition, command recording, submission and present are backend
collaborators outside the spec's scope.
-/

/-- One in-flight GPU vertex buffer (`utils::ResizBuf`): capacity in elements
plus current contents.  Its internals are not under `src/`. -/
structure GpuBuf where
  capacity : Nat
  data : List Word
  deriving DecidableEq, Repr

/-- Modelled from the spec: `utils::ResizBuf::copy_from_slice_and_maybe_resize`
(file `utils.rs`, not under `src/`) re-uploads the host buffer into the GPU
buffer, "growing the GPU buffer first if the host buffer has grown past its
capacity". -/
def GpuBuf.copyFromSliceAndMaybeResize (g : GpuBuf) (host : List Word) : GpuBuf :=
  { capacity := max g.capacity host.length, data := host }

/-- One attribute stream of a layer: host-side buffer, the per-in-flight-frame
GPU buffers, and the touch counter counting pending re-uploads. -/
structure AttrStream where
  host : List Word
  gpu : List GpuBuf
  touch : Nat
  deriving DecidableEq, Repr

/-- Touch handling for one stream, as in each
`if <stream>_touch != 0 { <stream>[current_frame].copy_from_slice_and_maybe_resize(..); <stream>_touch -= 1 }`
block of `draw_frame_internal`.  `current_frame` is always within the
in-flight buffer vector (whose length is fixed at creation); indexing is
embedded with `getD`. -/
def syncStream (cur : Nat) (st : AttrStream) : AttrStream :=
  if st.touch ≠ 0 then
    { st with
      gpu := st.gpu.set cur ((st.gpu.getD cur ⟨0, []⟩).copyFromSliceAndMaybeResize st.host),
      touch := st.touch - 1 }
  else st

/-- A textured layer of `lib.rs` (`dyntexs`, `texts` and `strtexs` carry the
same six attribute streams): position, opacity/color, UV, translation,
rotation, scale. -/
structure TexLayer where
  hidden : Bool
  posbuf : AttrStream
  opacbuf : AttrStream
  uvbuf : AttrStream
  tranbuf : AttrStream
  rotbuf : AttrStream
  scalebuf : AttrStream
  deriving DecidableEq, Repr

/-- A quad layer of `lib.rs`: five attribute streams (no UV; color instead of
opacity). -/
structure QuadLayer where
  hidden : Bool
  posbuf : AttrStream
  colbuf : AttrStream
  tranbuf : AttrStream
  rotbuf : AttrStream
  scalebuf : AttrStream
  deriving DecidableEq, Repr

/-- The `DrawType::DynamicTexture` branch body (lines 1440-1545 of `lib.rs`),
restricted to its attribute-stream effects: when the layer is not hidden, each
stream whose touch counter is nonzero is re-uploaded into the current in-flight
GPU buffer and its counter decremented, in source order posbuf, opacbuf,
uvbuf, tranbuf, rotbuf, scalebuf.  The same code shape serves the `Text` and
`StreamingTexture` branches. -/
def syncTexLayer (cur : Nat) (t : TexLayer) : TexLayer :=
  if t.hidden then t
  else
    { t with
      posbuf := syncStream cur t.posbuf,
      opacbuf := syncStream cur t.opacbuf,
      uvbuf := syncStream cur t.uvbuf,
      tranbuf := syncStream cur t.tranbuf,
      rotbuf := syncStream cur t.rotbuf,
      scalebuf := syncStream cur t.scalebuf }

/-- The `DrawType::Quad` branch touch handling (lines 1565-1609 of `lib.rs`):
posbuf, colbuf, tranbuf, rotbuf, scalebuf. -/
def syncQuadLayer (cur : Nat) (q : QuadLayer) : QuadLayer :=
  if q.hidden then q
  else
    { q with
      posbuf := syncStream cur q.posbuf,
      colbuf := syncStream cur q.colbuf,
      tranbuf := syncStream cur q.tranbuf,
      rotbuf := syncStream cur q.rotbuf,
      scalebuf := syncStream cur q.scalebuf }

/-- The compositor state walked by the draw loop: current in-flight frame
index and the four layer collections. -/
structure FrameState where
  current_frame : Nat
  draw_order : List DrawType
  texts : List TexLayer
  strtexs : List TexLayer
  dyntexs : List TexLayer
  quads : List QuadLayer
  deriving DecidableEq, Repr

/-- One draw-order entry of the loop in `draw_frame_internal`.  `texts[*id]`,
`strtexs[*id]` and `dyntexs[*id]` are indexed directly (panic on a stale id,
hence `none`); the quad branch uses `self.quads.get_mut(*id)` and skips a
missing id.  (The streaming-texture branch additionally flushes pixel writes
into image memory, outside the attribute-stream state modelled here.) -/
def drawStep (cur : Nat) (fs : FrameState) : DrawType → Option FrameState
  | DrawType.Text id =>
    match fs.texts[id]? with
    | none => none
    | some t => some { fs with texts := fs.texts.set id (syncTexLayer cur t) }
  | DrawType.StreamingTexture id =>
    match fs.strtexs[id]? with
    | none => none
    | some t => some { fs with strtexs := fs.strtexs.set id (syncTexLayer cur t) }
  | DrawType.DynamicTexture id =>
    match fs.dyntexs[id]? with
    | none => none
    | some t => some { fs with dyntexs := fs.dyntexs.set id (syncTexLayer cur t) }
  | DrawType.Quad id =>
    match fs.quads[id]? with
    | none => some fs
    | some q => some { fs with quads := fs.quads.set id (syncQuadLayer cur q) }

/-- The draw-order walk: `for draw_cmd in self.draw_order.iter() { ... }`. -/
def frameSync (cur : Nat) : List DrawType → FrameState → Option FrameState
  | [], fs => some fs
  | d :: rest, fs =>
    match drawStep cur fs d with
    | none => none
    | some fs1 => frameSync cur rest fs1

/-- The attribute-stream synchronization performed by one `draw_frame` call. -/
def drawFrameSync (fs : FrameState) : Option FrameState :=
  frameSync fs.current_frame fs.draw_order fs

/-- What one frame's touch handling does to a single stream: a nonzero touch
counter means the host buffer is copied into the current in-flight GPU buffer
and the counter drops by exactly 1; a zero counter leaves the stream alone. -/
def StreamSync (cur : Nat) (old new : AttrStream) : Prop :=
  (old.touch ≠ 0 →
    new.host = old.host ∧
    new.touch = old.touch - 1 ∧
    new.gpu[cur]? =
      some ((old.gpu.getD cur ⟨0, []⟩).copyFromSliceAndMaybeResize old.host)) ∧
  (old.touch = 0 → new = old)

/-- The current in-flight frame index addresses a real GPU buffer of the
stream (true in every reachable state: the in-flight buffer vectors all have
`max_frames_in_flight` entries and `current_frame` is reduced modulo it). -/
def StreamOk (cur : Nat) (st : AttrStream) : Prop :=
  cur < st.gpu.length

/-- The slot id `Dyntex::add` hands out: the top of the free list when there
is one, else the append position `count`. -/
def freeHead (tex : SingleTexture) : Nat :=
  match tex.removed with
  | v :: _ => v
  | [] => tex.count

/-!
Concrete example states used by the witness theorems below.
-/

/-- Interpretation of the abstract float operations used in witnesses. -/
def exFops : FOps := ⟨fun a _ => a, fun a _ => a, fun a => a, fun a => a⟩

/-- A concrete sprite builder value. -/
def exSprite : Sprite := ⟨0, 0, 0, 0, 0, 0, 0, (0, 0), (0, 0), (0, 0), 0, 6, (0, 0)⟩

/-- One layer holding one live sprite whose 40 words are all 1. -/
def exTex : SingleTexture := ⟨false, 1, List.replicate 40 1, []⟩

/-- A state with the single layer `exTex`. -/
def exState : VxState := ⟨[exTex], [DrawType.DynamicTexture 0], []⟩

/-- A layer with two sprite records, slot 0 logically removed. -/
def exTex2 : SingleTexture := ⟨false, 2, List.replicate 80 1, [0]⟩

/-- A two-layer state (layer 1 holds a removed slot). -/
def exState2 : VxState := ⟨[exTex, exTex2], [DrawType.DynamicTexture 0, DrawType.DynamicTexture 1], []⟩

/-- An in-flight GPU buffer that has never been uploaded to. -/
def exGpu : GpuBuf := ⟨0, []⟩

/-- A touched attribute stream (touch counter 1, host word 7). -/
def exStream : AttrStream := ⟨[7], [exGpu], 1⟩

/-- An untouched attribute stream (touch counter 0). -/
def exStream0 : AttrStream := ⟨[7], [exGpu], 0⟩

/-- A visible textured layer, five touched streams and an untouched scale. -/
def exTexLayer : TexLayer := ⟨false, exStream, exStream, exStream, exStream, exStream, exStream0⟩

/-- A visible quad layer, four touched streams and an untouched scale. -/
def exQuadLayer : QuadLayer := ⟨false, exStream, exStream, exStream, exStream, exStream0⟩

/-- A compositor state drawing one dyntex layer then one quad layer. -/
def exFrame : FrameState :=
  ⟨0, [DrawType.DynamicTexture 0, DrawType.Quad 0], [], [], [exTexLayer], [exQuadLayer]⟩

/-- `exGpu` after one re-upload of the host word 7. -/
def exGpu1 : GpuBuf := ⟨1, [7]⟩

/-- `exStream` after one frame of touch handling. -/
def exStream1 : AttrStream := ⟨[7], [exGpu1], 0⟩

/-- `exTexLayer` after one frame of touch handling. -/
def exTexLayer1 : TexLayer := ⟨false, exStream1, exStream1, exStream1, exStream1, exStream1, exStream0⟩

/-- `exQuadLayer` after one frame of touch handling. -/
def exQuadLayer1 : QuadLayer := ⟨false, exStream1, exStream1, exStream1, exStream1, exStream0⟩

/-- `exFrame` after one draw-order walk. -/
def exFrame2 : FrameState :=
  ⟨0, [DrawType.DynamicTexture 0, DrawType.Quad 0], [], [], [exTexLayer1], [exQuadLayer1]⟩

/-- All six in-flight buffer vectors of a textured layer cover the current
frame index. -/
def TexLayerOk (cur : Nat) (t : TexLayer) : Prop :=
  StreamOk cur t.posbuf ∧ StreamOk cur t.opacbuf ∧ StreamOk cur t.uvbuf ∧
  StreamOk cur t.tranbuf ∧ StreamOk cur t.rotbuf ∧ StreamOk cur t.scalebuf

/-- All five in-flight buffer vectors of a quad layer cover the current frame
index. -/
def QuadLayerOk (cur : Nat) (q : QuadLayer) : Prop :=
  StreamOk cur q.posbuf ∧ StreamOk cur q.colbuf ∧ StreamOk cur q.tranbuf ∧
  StreamOk cur q.rotbuf ∧ StreamOk cur q.scalebuf

/-- The eight UV words `set_uv`-style writes leave for one sprite slot:
vertex 0 (begin0, begin1), vertex 1 (begin0, end1), vertex 2 (end0, end1),
vertex 3 (end0, begin1). -/
def UvPattern (out : List Word) (sl : Nat) (ub ue : Word × Word) : Prop :=
  out[sl * 40 + 3]? = some ub.1 ∧ out[sl * 40 + 4]? = some ub.2 ∧
  out[sl * 40 + 13]? = some ub.1 ∧ out[sl * 40 + 14]? = some ue.2 ∧
  out[sl * 40 + 23]? = some ue.1 ∧ out[sl * 40 + 24]? = some ue.2 ∧
  out[sl * 40 + 33]? = some ue.1 ∧ out[sl * 40 + 34]? = some ub.2

/-! Laws of the store primitives. -/

theorem setWord_lt {buf : List Word} {i : Nat} (v : Word) (h : i < buf.length) :
    setWord buf i v = some (buf.set i v) := by
  simp [setWord, h]

theorem setWord_oob {buf : List Word} {i : Nat} (v : Word) (h : buf.length ≤ i) :
    setWord buf i v = none := by
  simp [setWord, Nat.not_lt.mpr h]

theorem setWords_spec :
    ∀ (ws : List (Nat × Word)) (buf b : List Word), setWords buf ws = some b →
      b.length = buf.length ∧ ∀ p ∈ ws, p.1 < buf.length := by
  intro ws
  induction ws with
  | nil =>
    intro buf b h
    simp only [setWords] at h
    cases h
    exact ⟨rfl, by simp⟩
  | cons p rest ih =>
    intro buf b h
    obtain ⟨i, v⟩ := p
    cases hw : setWord buf i v with
    | none =>
      simp only [setWords, hw] at h
      exact Option.noConfusion h
    | some b1 =>
      simp only [setWords, hw] at h
      have hi : i < buf.length := by
        by_contra hc
        rw [setWord_oob v (Nat.le_of_not_lt hc)] at hw
        cases hw
      have hb1 : b1 = buf.set i v := by
        rw [setWord_lt v hi] at hw
        cases hw
        rfl
      obtain ⟨hlen, hall⟩ := ih b1 b h
      subst hb1
      refine ⟨by rw [hlen, List.length_set], ?_⟩
      intro q hq
      rcases List.mem_cons.mp hq with hq | hq
      · subst hq
        exact hi
      · have := hall q hq
        rwa [List.length_set] at this
  
theorem setWords_total :
    ∀ (ws : List (Nat × Word)) (buf : List Word), (∀ p ∈ ws, p.1 < buf.length) →
      ∃ b, setWords buf ws = some b := by
  intro ws
  induction ws with
  | nil => intro buf _; exact ⟨buf, rfl⟩
  | cons p rest ih =>
    intro buf hp
    obtain ⟨i, v⟩ := p
    have hi : i < buf.length := hp (i, v) (List.mem_cons_self _ _)
    obtain ⟨b, hb⟩ := ih (buf.set i v) (fun q hq => by
      rw [List.length_set]
      exact hp q (List.mem_cons_of_mem _ hq))
    refine ⟨b, ?_⟩
    simp only [setWords, setWord_lt v hi]
    exact hb

theorem setWords_abort :
    ∀ (ws : List (Nat × Word)) (buf : List Word) (p : Nat × Word),
      p ∈ ws → buf.length ≤ p.1 → setWords buf ws = none := by
  intro ws
  induction ws with
  | nil => intro buf p hp; cases hp
  | cons q rest ih =>
    intro buf p hp hge
    obtain ⟨i, v⟩ := q
    rcases List.mem_cons.mp hp with hp | hp
    · subst hp
      simp only [setWords, setWord_oob v hge]
    · cases hw : setWord buf i v with
      | none => simp only [setWords, hw]
      | some b1 =>
        have hi : i < buf.length := by
          by_contra hc
          rw [setWord_oob v (Nat.le_of_not_lt hc)] at hw
          cases hw
        have hb1 : b1 = buf.set i v := by
          rw [setWord_lt v hi] at hw
          cases hw
          rfl
        simp only [setWords, hw]
        exact ih b1 p hp (by rw [hb1, List.length_set]; exact hge)

theorem setWords_get_ne :
    ∀ (ws : List (Nat × Word)) (buf b : List Word) (j : Nat),
      setWords buf ws = some b → (∀ p ∈ ws, p.1 ≠ j) → b[j]? = buf[j]? := by
  intro ws
  induction ws with
  | nil =>
    intro buf b j h _
    simp only [setWords] at h
    cases h
    rfl
  | cons p rest ih =>
    intro buf b j h hj
    obtain ⟨i, v⟩ := p
    cases hw : setWord buf i v with
    | none =>
      simp only [setWords, hw] at h
      exact Option.noConfusion h
    | some b1 =>
      simp only [setWords, hw] at h
      have hi : i < buf.length := by
        by_contra hc
        rw [setWord_oob v (Nat.le_of_not_lt hc)] at hw
        cases hw
      have hb1 : b1 = buf.set i v := by
        rw [setWord_lt v hi] at hw
        cases hw
        rfl
      have hrec := ih b1 b j h (fun q hq => hj q (List.mem_cons_of_mem _ hq))
      rw [hrec, hb1, List.getElem?_set_ne (hj (i, v) (List.mem_cons_self _ _))]

theorem setWords_get_last :
    ∀ (l1 : List (Nat × Word)) (buf b : List Word) (j : Nat) (v : Word)
      (l2 : List (Nat × Word)),
      setWords buf (l1 ++ (j, v) :: l2) = some b → (∀ p ∈ l2, p.1 ≠ j) →
      b[j]? = some v := by
  intro l1
  induction l1 with
  | nil =>
    intro buf b j v l2 h hj
    rw [List.nil_append] at h
    cases hw : setWord buf j v with
    | none =>
      simp only [setWords, hw] at h
      exact Option.noConfusion h
    | some b1 =>
      simp only [setWords, hw] at h
      have hjl : j < buf.length := by
        by_contra hc
        rw [setWord_oob v (Nat.le_of_not_lt hc)] at hw
        cases hw
      have hb1 : b1 = buf.set j v := by
        rw [setWord_lt v hjl] at hw
        cases hw
        rfl
      rw [setWords_get_ne l2 b1 b j h hj, hb1, List.getElem?_set_self hjl]
  | cons q l1 ih =>
    intro buf b j v l2 h hj
    obtain ⟨i, w⟩ := q
    rw [List.cons_append] at h
    cases hw : setWord buf i w with
    | none =>
      simp only [setWords, hw] at h
      exact Option.noConfusion h
    | some b1 =>
      simp only [setWords, hw] at h
      exact ih b1 b j v l2 h hj

/-! Laws of the growth loop. -/

theorem growGo_spec :
    ∀ (fuel : Nat) (buf : List Word) (c i : Nat),
      buf.length = 40 * c → i * 40 < buf.length + 40 * fuel →
      (growGo fuel buf (i * 40)).length = 40 * max c (i + 1) ∧
      (∀ j, j < buf.length → (growGo fuel buf (i * 40))[j]? = buf[j]?) ∧
      (∀ j, buf.length ≤ j → j < 40 * max c (i + 1) →
        (growGo fuel buf (i * 40))[j]? = some (0 : Word)) := by
  intro fuel
  induction fuel with
  | zero =>
    intro buf c i hlen hfuel
    have hc : i + 1 ≤ c := by omega
    have hmax : max c (i + 1) = c := Nat.max_eq_left hc
    have hstep : growGo 0 buf (i * 40) = buf := rfl
    rw [hstep]
    refine ⟨by rw [hmax, hlen], fun j _ => rfl, fun j hj1 hj2 => ?_⟩
    rw [hmax] at hj2
    omega
  | succ fuel ih =>
    intro buf c i hlen hfuel
    by_cases hle : buf.length ≤ i * 40
    · have hstep : growGo (fuel + 1) buf (i * 40)
          = growGo fuel (buf ++ List.replicate 40 0) (i * 40) := by
        simp [growGo, hle]
      have hlen2 : (buf ++ List.replicate 40 0).length = 40 * (c + 1) := by
        simp [hlen]
        omega
      have hfuel2 : i * 40 < (buf ++ List.replicate 40 0).length + 40 * fuel := by
        rw [hlen2]
        omega
      obtain ⟨h1, h2, h3⟩ := ih (buf ++ List.replicate 40 0) (c + 1) i hlen2 hfuel2
      have hci : c ≤ i := by omega
      have hmax : max (c + 1) (i + 1) = max c (i + 1) := by omega
      refine ⟨by rw [hstep, h1, hmax], ?_, ?_⟩
      · intro j hj
        rw [hstep, h2 j (by simp; omega), List.getElem?_append]
        simp [hj]
      · intro j hj1 hj2
        by_cases hj3 : j < (buf ++ List.replicate 40 0).length
        · rw [hstep, h2 j hj3, List.getElem?_append_right hj1, List.getElem?_replicate]
          have : j - buf.length < 40 := by
            simp at hj3
            omega
          simp [this]
        · rw [hstep]
          exact h3 j (Nat.le_of_not_lt hj3) (by rw [hmax]; exact hj2)
    · have hstep : growGo (fuel + 1) buf (i * 40) = buf := by
        simp [growGo, hle]
      have hc : i + 1 ≤ c := by omega
      have hmax : max c (i + 1) = c := Nat.max_eq_left hc
      rw [hstep]
      refine ⟨by rw [hmax, hlen], fun j _ => rfl, fun j hj1 hj2 => ?_⟩
      rw [hmax] at hj2
      omega

theorem growBuf_spec (buf : List Word) (c i : Nat) (hlen : buf.length = 40 * c) :
    (growBuf buf (i * 40)).length = 40 * max c (i + 1) ∧
    (∀ j, j < buf.length → (growBuf buf (i * 40))[j]? = buf[j]?) ∧
    (∀ j, buf.length ≤ j → j < 40 * max c (i + 1) →
      (growBuf buf (i * 40))[j]? = some (0 : Word)) :=
  growGo_spec (i * 40 + 1) buf c i hlen (by omega)

/-! Where the stores of one `add` land. -/

theorem vertexWrites_fst {base : Nat} {px py dp u0 u1 t0 t1 r sc col : Word}
    {p : Nat × Word}
    (hp : p ∈ vertexWrites base px py dp u0 u1 t0 t1 r sc col) :
    base ≤ p.1 ∧ p.1 < base + 10 := by
  simp only [vertexWrites, List.mem_cons, List.not_mem_nil, or_false] at hp
  rcases hp with rfl | rfl | rfl | rfl | rfl | rfl | rfl | rfl | rfl | rfl <;>
    exact ⟨by simp, by simp⟩

theorem spriteWrites_fst {fops : FOps} {sprite : Sprite} {base : Nat}
    {p : Nat × Word} (hp : p ∈ spriteWrites fops sprite base) :
    base ≤ p.1 ∧ p.1 < base + 40 := by
  simp only [spriteWrites, List.mem_append] at hp
  rcases hp with ((h | h) | h) | h <;>
    · obtain ⟨h1, h2⟩ := vertexWrites_fst h
      omega

/-- Full behaviour of `dyntexAdd` on a well-formed layer: it succeeds, returns
the slot from `freeHead`, preserves the arena invariant, and the growth step
leaves the buffer at least `(slot+1) * 40` words long with the fresh region
zero-filled before the vertex records are written. -/
theorem dyntexAdd_spec (fops : FOps) (s : VxState) (texture : Nat) (sprite : Sprite)
    (tex : SingleTexture) (hget : s.dyntexs[texture]? = some tex)
    (hinv : ArenaInv tex) :
    ∃ tex2 : SingleTexture,
      dyntexAdd fops s texture sprite =
        some ({ s with dyntexs := s.dyntexs.set texture tex2 },
              ⟨texture, freeHead tex⟩) ∧
      tex2.hidden = tex.hidden ∧
      tex2.count = (match tex.removed with
        | [] => tex.count + 1
        | _ :: _ => tex.count) ∧
      tex2.removed = tex.removed.tail ∧
      ArenaInv tex2 ∧
      40 * (freeHead tex + 1) ≤ (growBuf tex.mockbuffer (freeHead tex * 40)).length ∧
      tex2.mockbuffer.length = (growBuf tex.mockbuffer (freeHead tex * 40)).length ∧
      (∀ j, tex.mockbuffer.length ≤ j →
        j < (growBuf tex.mockbuffer (freeHead tex * 40)).length →
        (growBuf tex.mockbuffer (freeHead tex * 40))[j]? = some 0) := by
  obtain ⟨hlen, hrem⟩ := hinv
  cases hr : tex.removed with
  | cons v rest =>
    have hfh : freeHead tex = v := by simp [freeHead, hr]
    have hv : v < tex.count := hrem v (by rw [hr]; exact List.mem_cons_self _ _)
    obtain ⟨hglen, hgpres, hgzero⟩ := growBuf_spec tex.mockbuffer tex.count v hlen
    have hmax : max tex.count (v + 1) = tex.count := by omega
    have hwb : ∀ p ∈ spriteWrites fops sprite (v * 40),
        p.1 < (growBuf tex.mockbuffer (v * 40)).length := by
      intro p hp
      obtain ⟨h1, h2⟩ := spriteWrites_fst hp
      rw [hglen, hmax]
      omega
    obtain ⟨buf, hbuf⟩ := setWords_total _ _ hwb
    obtain ⟨hblen, -⟩ := setWords_spec _ _ _ hbuf
    refine ⟨{ tex with removed := rest, mockbuffer := buf }, ?_, rfl, rfl, rfl,
      ⟨?_, ?_⟩, ?_, ?_, ?_⟩
    · simp only [dyntexAdd, hget, hr]
      rw [hfh, hbuf]
    · show buf.length = 40 * tex.count
      rw [hblen, hglen, hmax]
    · intro i hi
      exact hrem i (by rw [hr]; exact List.mem_cons_of_mem _ hi)
    · rw [hfh, hglen, hmax]
      omega
    · show buf.length = _
      rw [hfh]
      exact hblen
    · intro j hj1 hj2
      rw [hfh] at hj2 ⊢
      rw [hglen] at hj2
      exact hgzero j hj1 hj2
  | nil =>
    have hfh : freeHead tex = tex.count := by simp [freeHead, hr]
    obtain ⟨hglen, hgpres, hgzero⟩ := growBuf_spec tex.mockbuffer tex.count tex.count hlen
    have hmax : max tex.count (tex.count + 1) = tex.count + 1 := by omega
    have hwb : ∀ p ∈ spriteWrites fops sprite (tex.count * 40),
        p.1 < (growBuf tex.mockbuffer (tex.count * 40)).length := by
      intro p hp
      obtain ⟨h1, h2⟩ := spriteWrites_fst hp
      rw [hglen, hmax]
      omega
    obtain ⟨buf, hbuf⟩ := setWords_total _ _ hwb
    obtain ⟨hblen, -⟩ := setWords_spec _ _ _ hbuf
    refine ⟨{ tex with count := tex.count + 1, removed := [], mockbuffer := buf },
      ?_, rfl, rfl, rfl, ⟨?_, ?_⟩, ?_, ?_, ?_⟩
    · simp only [dyntexAdd, hget, hr]
      rw [hfh, hbuf]
    · show buf.length = 40 * (tex.count + 1)
      rw [hblen, hglen, hmax]
    · intro i hi
      exact (List.not_mem_nil i hi).elim
    · rw [hfh, hglen, hmax]
    · show buf.length = _
      rw [hfh]
      exact hblen
    · intro j hj1 hj2
      rw [hfh] at hj2 ⊢
      rw [hglen] at hj2
      exact hgzero j hj1 hj2

/-- Full behaviour of `dyntexRemoveSprite` on an in-bounds slot: it zeroes the
four scale words of the slot, pushes the slot id, and leaves every other word
and the buffer length untouched. -/
theorem dyntexRemoveSprite_spec (s : VxState) (handle : Handle)
    (tex : SingleTexture) (hget : s.dyntexs[handle.layer]? = some tex)
    (hlen : 40 * (handle.slot + 1) ≤ tex.mockbuffer.length) :
    ∃ buf : List Word,
      dyntexRemoveSprite s handle =
        some { s with dyntexs := s.dyntexs.set handle.layer { tex with mockbuffer := buf, removed := handle.slot :: tex.removed } } ∧
      buf.length = tex.mockbuffer.length ∧
      (∀ j, j ≠ handle.slot * 40 + 8 → j ≠ handle.slot * 40 + 18 →
        j ≠ handle.slot * 40 + 28 → j ≠ handle.slot * 40 + 38 →
        buf[j]? = tex.mockbuffer[j]?) ∧
      buf[handle.slot * 40 + 8]? = some 0 ∧
      buf[handle.slot * 40 + 18]? = some 0 ∧
      buf[handle.slot * 40 + 28]? = some 0 ∧
      buf[handle.slot * 40 + 38]? = some 0 := by
  have hwb : ∀ p ∈ ([(handle.slot * 40 + 8, (0 : Word)), (handle.slot * 40 + 18, 0),
      (handle.slot * 40 + 28, 0), (handle.slot * 40 + 38, 0)] : List (Nat × Word)),
      p.1 < tex.mockbuffer.length := by
    intro p hp
    simp only [List.mem_cons, List.not_mem_nil, or_false] at hp
    rcases hp with rfl | rfl | rfl | rfl <;> simp <;> omega
  obtain ⟨buf, hbuf⟩ := setWords_total _ _ hwb
  obtain ⟨hblen, -⟩ := setWords_spec _ _ _ hbuf
  refine ⟨buf, ?_, hblen, ?_, ?_, ?_, ?_, ?_⟩
  · simp only [dyntexRemoveSprite, hget]
    rw [hbuf]
  · intro j h8 h18 h28 h38
    refine setWords_get_ne _ _ _ _ hbuf ?_
    intro p hp
    simp only [List.mem_cons, List.not_mem_nil, or_false] at hp
    rcases hp with rfl | rfl | rfl | rfl <;> simp <;> omega
  · exact setWords_get_last [] _ _ _ _ _ hbuf (by
      intro p hp
      simp only [List.mem_cons, List.not_mem_nil, or_false] at hp
      rcases hp with rfl | rfl | rfl <;> simp <;> omega)
  · exact setWords_get_last [(handle.slot * 40 + 8, 0)] _ _ _ _ _ hbuf (by
      intro p hp
      simp only [List.mem_cons, List.not_mem_nil, or_false] at hp
      rcases hp with rfl | rfl <;> simp <;> omega)
  · exact setWords_get_last [(handle.slot * 40 + 8, 0), (handle.slot * 40 + 18, 0)]
      _ _ _ _ _ hbuf (by
      intro p hp
      simp only [List.mem_cons, List.not_mem_nil, or_false] at hp
      rcases hp with rfl <;> simp <;> omega)
  · exact setWords_get_last [(handle.slot * 40 + 8, 0), (handle.slot * 40 + 18, 0),
      (handle.slot * 40 + 28, 0)] _ _ _ _ _ hbuf (by
      intro p hp
      exact (List.not_mem_nil p hp).elim)

/-- C2: after `remove_sprite`, the next `add` on the same layer returns the
just-removed slot id (the free list is LIFO); with an empty free list, `add`
appends, returning the previous slot count. -/
theorem free_list_lifo_reuse (fops : FOps) (s : VxState) (lay slot : Nat)
    (sp : Sprite) (tex : SingleTexture) (hget : s.dyntexs[lay]? = some tex)
    (hinv : ArenaInv tex) (hslot : slot < tex.count) :
    (∃ s1, dyntexRemoveSprite s ⟨lay, slot⟩ = some s1 ∧
      ∃ s2, dyntexAdd fops s1 lay sp = some (s2, ⟨lay, slot⟩)) ∧
    (tex.removed = [] →
      ∃ s2, dyntexAdd fops s lay sp = some (s2, ⟨lay, tex.count⟩)) := by
  obtain ⟨hlt, -⟩ := List.getElem?_eq_some.mp hget
  constructor
  · have hlenb : 40 * (slot + 1) ≤ tex.mockbuffer.length := by
      obtain ⟨h1, -⟩ := hinv
      omega
    obtain ⟨buf, hrem, hblen, -⟩ := dyntexRemoveSprite_spec s ⟨lay, slot⟩ tex hget hlenb
    refine ⟨_, hrem, ?_⟩
    have hget1 : ({ s with dyntexs := s.dyntexs.set lay { tex with mockbuffer := buf, removed := slot :: tex.removed } }).dyntexs[lay]? = some { tex with mockbuffer := buf, removed := slot :: tex.removed } :=
      List.getElem?_set_self hlt
    have hinv1 : ArenaInv { tex with mockbuffer := buf, removed := slot :: tex.removed } := by
      refine ⟨?_, ?_⟩
      · show buf.length = 40 * tex.count
        rw [hblen]
        exact hinv.1
      · intro i hi
        rcases List.mem_cons.mp hi with rfl | hi
        · exact hslot
        · exact hinv.2 i hi
    obtain ⟨tex2, hadd, -⟩ := dyntexAdd_spec fops _ lay sp _ hget1 hinv1
    exact ⟨_, hadd⟩
  · intro hre
    obtain ⟨tex2, hadd, -⟩ := dyntexAdd_spec fops s lay sp tex hget hinv
    have hfh : freeHead tex = tex.count := by simp [freeHead, hre]
    rw [hfh] at hadd
    exact ⟨_, hadd⟩

/-- C2 witness: on a one-sprite layer, remove slot 0 then add: slot 0 comes
back; on the empty free list, add returns count = 1. -/
theorem free_list_lifo_reuse_witness :
    ((∃ s1, dyntexRemoveSprite exState ⟨0, 0⟩ = some s1 ∧
      ∃ s2, dyntexAdd exFops s1 0 exSprite = some (s2, ⟨0, 0⟩)) ∧
    (exTex.removed = [] →
      ∃ s2, dyntexAdd exFops exState 0 exSprite = some (s2, ⟨0, exTex.count⟩))) :=
  free_list_lifo_reuse exFops exState 0 0 exSprite exTex rfl
    ⟨by decide, by decide⟩ (by decide)

/-- C3: `remove_sprite` on a live slot zeroes exactly the four scale words of
that slot, pushes the slot id onto the free list, does not shrink the host
buffer, and leaves every other word of the layer (and every other layer)
unchanged. -/
theorem remove_sprite_zeroes_scale_only (s : VxState) (h : Handle)
    (tex : SingleTexture) (hget : s.dyntexs[h.layer]? = some tex)
    (hinv : ArenaInv tex) (hslot : h.slot < tex.count) :
    ∃ buf, dyntexRemoveSprite s h =
        some { s with dyntexs := s.dyntexs.set h.layer { tex with mockbuffer := buf, removed := h.slot :: tex.removed } } ∧
      buf.length = tex.mockbuffer.length ∧
      (∀ j, j ≠ h.slot * 40 + 8 → j ≠ h.slot * 40 + 18 → j ≠ h.slot * 40 + 28 →
        j ≠ h.slot * 40 + 38 → buf[j]? = tex.mockbuffer[j]?) ∧
      buf[h.slot * 40 + 8]? = some 0 ∧ buf[h.slot * 40 + 18]? = some 0 ∧
      buf[h.slot * 40 + 28]? = some 0 ∧ buf[h.slot * 40 + 38]? = some 0 ∧
      (∀ l, l ≠ h.layer →
        (s.dyntexs.set h.layer { tex with mockbuffer := buf, removed := h.slot :: tex.removed })[l]? = s.dyntexs[l]?) := by
  have hlenb : 40 * (h.slot + 1) ≤ tex.mockbuffer.length := by
    obtain ⟨h1, -⟩ := hinv
    omega
  obtain ⟨buf, hrem, hblen, hne, h8, h18, h28, h38⟩ :=
    dyntexRemoveSprite_spec s h tex hget hlenb
  exact ⟨buf, hrem, hblen, hne, h8, h18, h28, h38, fun l hl =>
    List.getElem?_set_ne (fun hc => hl hc.symm)⟩

/-- C3 witness at layer 0, slot 0 of the all-ones one-sprite layer. -/
theorem remove_sprite_zeroes_scale_only_witness :
    ∃ buf, dyntexRemoveSprite exState ⟨0, 0⟩ =
        some { exState with dyntexs := exState.dyntexs.set 0 { exTex with mockbuffer := buf, removed := 0 :: exTex.removed } } ∧
      buf.length = exTex.mockbuffer.length ∧
      (∀ j, j ≠ 0 * 40 + 8 → j ≠ 0 * 40 + 18 → j ≠ 0 * 40 + 28 →
        j ≠ 0 * 40 + 38 → buf[j]? = exTex.mockbuffer[j]?) ∧
      buf[0 * 40 + 8]? = some 0 ∧ buf[0 * 40 + 18]? = some 0 ∧
      buf[0 * 40 + 28]? = some 0 ∧ buf[0 * 40 + 38]? = some 0 ∧
      (∀ l, l ≠ 0 →
        (exState.dyntexs.set 0 { exTex with mockbuffer := buf, removed := 0 :: exTex.removed })[l]? = exState.dyntexs[l]?) :=
  remove_sprite_zeroes_scale_only exState ⟨0, 0⟩ exTex rfl
    ⟨by decide, by decide⟩ (by decide)

/-- C5: a fresh layer satisfies the arena invariant; under it, every `add`
succeeds with all its stores in bounds (it never hits the out-of-bounds
abort), growing the buffer to at least `(slot_id + 1) * 40` words with the
fresh region zero-filled before the vertex records land, and preserves the
invariant; `remove_sprite` on a live slot also preserves it — so arbitrary
add/remove sequences (including long add-then-remove loops) never write out
of bounds. -/
theorem add_writes_in_bounds :
    ArenaInv SingleTexture.init ∧
    (∀ (fops : FOps) (s : VxState) (lay : Nat) (sp : Sprite) (tex : SingleTexture),
      s.dyntexs[lay]? = some tex → ArenaInv tex →
      ∃ tex2, dyntexAdd fops s lay sp =
          some ({ s with dyntexs := s.dyntexs.set lay tex2 }, ⟨lay, freeHead tex⟩) ∧
        ArenaInv tex2 ∧
        40 * (freeHead tex + 1) ≤ (growBuf tex.mockbuffer (freeHead tex * 40)).length ∧
        tex2.mockbuffer.length = (growBuf tex.mockbuffer (freeHead tex * 40)).length ∧
        (∀ j, tex.mockbuffer.length ≤ j →
          j < (growBuf tex.mockbuffer (freeHead tex * 40)).length →
          (growBuf tex.mockbuffer (freeHead tex * 40))[j]? = some 0)) ∧
    (∀ (s : VxState) (h : Handle) (tex : SingleTexture),
      s.dyntexs[h.layer]? = some tex → ArenaInv tex → h.slot < tex.count →
      ∃ buf, dyntexRemoveSprite s h =
          some { s with dyntexs := s.dyntexs.set h.layer { tex with mockbuffer := buf, removed := h.slot :: tex.removed } } ∧
        ArenaInv { tex with mockbuffer := buf, removed := h.slot :: tex.removed }) := by
  refine ⟨⟨rfl, fun i hi => (List.not_mem_nil i hi).elim⟩, ?_, ?_⟩
  · intro fops s lay sp tex hget hinv
    obtain ⟨tex2, hadd, -, -, -, hinv2, hle, hlen2, hzero⟩ :=
      dyntexAdd_spec fops s lay sp tex hget hinv
    exact ⟨tex2, hadd, hinv2, hle, hlen2, hzero⟩
  · intro s h tex hget hinv hslot
    have hlenb : 40 * (h.slot + 1) ≤ tex.mockbuffer.length := by
      obtain ⟨h1, -⟩ := hinv
      omega
    obtain ⟨buf, hrem, hblen, -⟩ := dyntexRemoveSprite_spec s h tex hget hlenb
    refine ⟨buf, hrem, ?_, ?_⟩
    · show buf.length = 40 * tex.count
      rw [hblen]
      exact hinv.1
    · intro i hi
      rcases List.mem_cons.mp hi with rfl | hi
      · exact hslot
      · exact hinv.2 i hi

/-- C5 witness: an append-mode `add` on the one-sprite layer (free list
empty): the buffer grows from 40 to 80 words, zero-filled, invariant kept. -/
theorem add_writes_in_bounds_witness :
    ∃ tex2, dyntexAdd exFops exState 0 exSprite =
        some ({ exState with dyntexs := exState.dyntexs.set 0 tex2 }, ⟨0, freeHead exTex⟩) ∧
      ArenaInv tex2 ∧
      40 * (freeHead exTex + 1) ≤ (growBuf exTex.mockbuffer (freeHead exTex * 40)).length ∧
      tex2.mockbuffer.length = (growBuf exTex.mockbuffer (freeHead exTex * 40)).length ∧
      (∀ j, exTex.mockbuffer.length ≤ j →
        j < (growBuf exTex.mockbuffer (freeHead exTex * 40)).length →
        (growBuf exTex.mockbuffer (freeHead exTex * 40))[j]? = some 0) :=
  add_writes_in_bounds.2.1 exFops exState 0 exSprite exTex rfl ⟨by decide, by decide⟩

/-- C9: removing the same live slot twice is unguarded: both calls succeed and
the free list ends up holding the slot id twice. -/
theorem double_remove_pushes_twice (s : VxState) (h : Handle)
    (tex : SingleTexture) (hget : s.dyntexs[h.layer]? = some tex)
    (hlenb : 40 * (h.slot + 1) ≤ tex.mockbuffer.length) :
    ∃ s1, dyntexRemoveSprite s h = some s1 ∧
      ∃ s2, dyntexRemoveSprite s1 h = some s2 ∧
        ∃ buf, s2.dyntexs[h.layer]? =
          some { tex with mockbuffer := buf, removed := h.slot :: h.slot :: tex.removed } := by
  obtain ⟨hlt, -⟩ := List.getElem?_eq_some.mp hget
  obtain ⟨buf1, hrem1, hblen1, -⟩ := dyntexRemoveSprite_spec s h tex hget hlenb
  refine ⟨_, hrem1, ?_⟩
  have hget1 : ({ s with dyntexs := s.dyntexs.set h.layer { tex with mockbuffer := buf1, removed := h.slot :: tex.removed } }).dyntexs[h.layer]? = some { tex with mockbuffer := buf1, removed := h.slot :: tex.removed } :=
    List.getElem?_set_self hlt
  obtain ⟨buf2, hrem2, -⟩ := dyntexRemoveSprite_spec _ h _ hget1 (by
    show 40 * (h.slot + 1) ≤ buf1.length
    rw [hblen1]
    exact hlenb)
  refine ⟨_, hrem2, buf2, ?_⟩
  have hlt1 : h.layer < (s.dyntexs.set h.layer { tex with mockbuffer := buf1, removed := h.slot :: tex.removed }).length := by
    rw [List.length_set]
    exact hlt
  exact List.getElem?_set_self hlt1

/-- C9 witness: removing slot 0 of the one-sprite layer twice leaves the free
list `[0, 0]`. -/
theorem double_remove_pushes_twice_witness :
    ∃ s1, dyntexRemoveSprite exState ⟨0, 0⟩ = some s1 ∧
      ∃ s2, dyntexRemoveSprite s1 ⟨0, 0⟩ = some s2 ∧
        ∃ buf, s2.dyntexs[(0 : Nat)]? =
          some { exTex with mockbuffer := buf, removed := [0, 0] } :=
  double_remove_pushes_twice exState ⟨0, 0⟩ exTex rfl (by decide)

/-- The linear scan finds an index whenever the entry is in the draw order. -/
theorem findDynOrder_mem :
    ∀ (order : List DrawType) (id : Nat),
      DrawType.DynamicTexture id ∈ order →
      ∃ idx, findDynOrder id order = some idx ∧
        order[idx]? = some (DrawType.DynamicTexture id) := by
  intro order
  induction order with
  | nil => intro id hmem; cases hmem
  | cons d rest ih =>
    intro id hmem
    cases d with
    | DynamicTexture i =>
      by_cases hi : i = id
      · subst hi
        exact ⟨0, by simp [findDynOrder], by simp⟩
      · have hmem2 : DrawType.DynamicTexture id ∈ rest := by
          rcases List.mem_cons.mp hmem with heq | h2
          · cases heq
            exact absurd rfl hi
          · exact h2
        obtain ⟨idx, hfind, hat⟩ := ih id hmem2
        exact ⟨idx + 1, by simp [findDynOrder, hi, hfind], by
          rw [List.getElem?_cons_succ]
          exact hat⟩
    | StreamingTexture i =>
      have hmem2 : DrawType.DynamicTexture id ∈ rest := by
        rcases List.mem_cons.mp hmem with heq | h2
        · cases heq
        · exact h2
      obtain ⟨idx, hfind, hat⟩ := ih id hmem2
      exact ⟨idx + 1, by simp [findDynOrder, hfind], by
        rw [List.getElem?_cons_succ]
        exact hat⟩
    | Quad i =>
      have hmem2 : DrawType.DynamicTexture id ∈ rest := by
        rcases List.mem_cons.mp hmem with heq | h2
        · cases heq
        · exact h2
      obtain ⟨idx, hfind, hat⟩ := ih id hmem2
      exact ⟨idx + 1, by simp [findDynOrder, hfind], by
        rw [List.getElem?_cons_succ]
        exact hat⟩
    | Text i =>
      have hmem2 : DrawType.DynamicTexture id ∈ rest := by
        rcases List.mem_cons.mp hmem with heq | h2
        · cases heq
        · exact h2
      obtain ⟨idx, hfind, hat⟩ := ih id hmem2
      exact ⟨idx + 1, by simp [findDynOrder, hfind], by
        rw [List.getElem?_cons_succ]
        exact hat⟩

/-- C4: for a layer handle present in the Draw-Order List, `remove_layer`
deletes that entry; it pops the layer and hands it to `destroy_texture`
(GPU teardown, collection shrink) if and only if the layer id is the highest
of its kind; otherwise the collection — every layer's host data and id — is
left untouched, and even in the teardown case no surviving layer's id moves. -/
theorem remove_layer_teardown_iff_last (s : VxState) (lay : Nat)
    (hmem : DrawType.DynamicTexture lay ∈ s.draw_order)
    (hlt : lay < s.dyntexs.length) :
    ∃ idx, findDynOrder lay s.draw_order = some idx ∧
      s.draw_order[idx]? = some (DrawType.DynamicTexture lay) ∧
      (dyntexRemoveLayer s lay).draw_order = s.draw_order.eraseIdx idx ∧
      (s.dyntexs.length = lay + 1 →
        (dyntexRemoveLayer s lay).dyntexs = s.dyntexs.dropLast ∧
        ∃ t, s.dyntexs.getLast? = some t ∧
          (dyntexRemoveLayer s lay).destroyed = s.destroyed ++ [t]) ∧
      (s.dyntexs.length ≠ lay + 1 →
        (dyntexRemoveLayer s lay).dyntexs = s.dyntexs ∧
        (dyntexRemoveLayer s lay).destroyed = s.destroyed) ∧
      (∀ j, j + 1 < s.dyntexs.length →
        (dyntexRemoveLayer s lay).dyntexs[j]? = s.dyntexs[j]?) := by
  obtain ⟨idx, hfind, hat⟩ := findDynOrder_mem s.draw_order lay hmem
  refine ⟨idx, hfind, hat, ?_⟩
  by_cases hc : s.dyntexs.length = lay + 1
  · cases hgl : s.dyntexs.getLast? with
    | none =>
      rw [List.getLast?_eq_none_iff] at hgl
      rw [hgl] at hlt
      cases hlt
    | some t =>
      have hres : dyntexRemoveLayer s lay =
          { s with draw_order := s.draw_order.eraseIdx idx,
                   dyntexs := s.dyntexs.dropLast,
                   destroyed := s.destroyed ++ [t] } := by
        simp only [dyntexRemoveLayer, hfind, hc, if_pos, hgl]
      rw [hres]
      refine ⟨rfl, fun _ => ⟨rfl, t, rfl, rfl⟩, fun hne => absurd hc hne, ?_⟩
      intro j hj
      show s.dyntexs.dropLast[j]? = s.dyntexs[j]?
      rw [List.dropLast_eq_take, List.getElem?_take]
      have : j < s.dyntexs.length - 1 := by omega
      simp [this]
  · have hres : dyntexRemoveLayer s lay =
        { s with draw_order := s.draw_order.eraseIdx idx } := by
      simp only [dyntexRemoveLayer, hfind, hc, if_false]
    rw [hres]
    exact ⟨rfl, fun h => absurd h hc, fun _ => ⟨rfl, rfl⟩, fun j _ => rfl⟩

/-- C4 witness: removing layer 0 of the two-layer state (not the highest id)
soft-removes it; removing layer 1 of the same state destroys it.  Instantiated
at layer 0. -/
theorem remove_layer_teardown_iff_last_witness :
    ∃ idx, findDynOrder 0 exState2.draw_order = some idx ∧
      exState2.draw_order[idx]? = some (DrawType.DynamicTexture 0) ∧
      (dyntexRemoveLayer exState2 0).draw_order = exState2.draw_order.eraseIdx idx ∧
      (exState2.dyntexs.length = 0 + 1 →
        (dyntexRemoveLayer exState2 0).dyntexs = exState2.dyntexs.dropLast ∧
        ∃ t, exState2.dyntexs.getLast? = some t ∧
          (dyntexRemoveLayer exState2 0).destroyed = exState2.destroyed ++ [t]) ∧
      (exState2.dyntexs.length ≠ 0 + 1 →
        (dyntexRemoveLayer exState2 0).dyntexs = exState2.dyntexs ∧
        (dyntexRemoveLayer exState2 0).destroyed = exState2.destroyed) ∧
      (∀ j, j + 1 < exState2.dyntexs.length →
        (dyntexRemoveLayer exState2 0).dyntexs[j]? = exState2.dyntexs[j]?) :=
  remove_layer_teardown_iff_last exState2 0 (by decide) (by decide)

/-- C6 counterexample: on a state whose layer 0 exists with a single slot,
calling `set_position` or `set_rotation` with the nonexistent slot 1 is NOT a
silent no-op — the unchecked slice write panics (`none`); only `set_uv`
performs the slot check and no-ops. -/
theorem setters_no_slot_check_cex :
    dyntexSetPosition exState ⟨0, 1⟩ (2, 3) = none ∧
    dyntexSetRotation exState ⟨0, 1⟩ 2 = none ∧
    dyntexSetUv exState ⟨0, 1⟩ (2, 2) (3, 3) = some exState := by
  decide

/-- C6 amended: all three setters are silent no-ops when the LAYER is missing;
`set_uv` additionally checks the slot against `count` and no-ops on an
out-of-range slot; but `set_position` and `set_rotation` perform no slot
check — with a live layer and a slot pointing past the host buffer they panic
(out-of-bounds slice write) instead of no-opping. -/
theorem setters_existence_checks (s : VxState) (h : Handle)
    (pos : Word × Word) (rot : Word) (ub ue : Word × Word) :
    (s.dyntexs[h.layer]? = none →
      dyntexSetPosition s h pos = some s ∧
      dyntexSetRotation s h rot = some s ∧
      dyntexSetUv s h ub ue = some s) ∧
    (∀ tex, s.dyntexs[h.layer]? = some tex → tex.count ≤ h.slot →
      dyntexSetUv s h ub ue = some s) ∧
    (∀ tex, s.dyntexs[h.layer]? = some tex → tex.mockbuffer.length ≤ h.slot * 40 →
      dyntexSetPosition s h pos = none ∧ dyntexSetRotation s h rot = none) := by
  refine ⟨?_, ?_, ?_⟩
  · intro hnone
    refine ⟨?_, ?_, ?_⟩
    · simp [dyntexSetPosition, hnone]
    · simp [dyntexSetRotation, hnone]
    · simp [dyntexSetUv, hnone]
  · intro tex hget hle
    simp [dyntexSetUv, hget, Nat.not_lt.mpr hle]
  · intro tex hget hle
    constructor
    · simp only [dyntexSetPosition, hget]
      rw [setWords_abort _ _ (h.slot * 40 + 5, pos.1) (List.mem_cons_self _ _) (by omega)]
    · simp only [dyntexSetRotation, hget]
      rw [setWords_abort _ _ (h.slot * 40 + 7, rot) (List.mem_cons_self _ _) (by omega)]

/-- C6 amended witness: a missing layer no-ops all three setters; on the
one-slot layer, slot 5 no-ops `set_uv` but panics `set_position` and
`set_rotation`. -/
theorem setters_existence_checks_witness :
    (dyntexSetPosition ⟨[], [], []⟩ ⟨0, 0⟩ (2, 3) = some ⟨[], [], []⟩ ∧
      dyntexSetRotation ⟨[], [], []⟩ ⟨0, 0⟩ 2 = some ⟨[], [], []⟩ ∧
      dyntexSetUv ⟨[], [], []⟩ ⟨0, 0⟩ (1, 1) (2, 2) = some ⟨[], [], []⟩) ∧
    dyntexSetUv exState ⟨0, 5⟩ (1, 1) (2, 2) = some exState ∧
    (dyntexSetPosition exState ⟨0, 5⟩ (2, 3) = none ∧
      dyntexSetRotation exState ⟨0, 5⟩ 2 = none) :=
  ⟨(setters_existence_checks ⟨[], [], []⟩ ⟨0, 0⟩ (2, 3) 2 (1, 1) (2, 2)).1 rfl,
   (setters_existence_checks exState ⟨0, 5⟩ (2, 3) 2 (1, 1) (2, 2)).2.1 exTex rfl
     (by decide),
   (setters_existence_checks exState ⟨0, 5⟩ (2, 3) 2 (1, 1) (2, 2)).2.2 exTex rfl
     (by decide)⟩

/-- C10: `hide` and `show` index the layer collection directly — an id outside
the collection panics (unlike the no-op attribute setters), and an in-bounds
id only sets or clears that layer's hidden flag. -/
theorem hide_show_unchecked_indexing (s : VxState) (lay : Nat) :
    (s.dyntexs.length ≤ lay → dyntexHide s lay = none ∧ dyntexShow s lay = none) ∧
    (∀ tex, s.dyntexs[lay]? = some tex →
      dyntexHide s lay = some { s with dyntexs := s.dyntexs.set lay { tex with hidden := true } } ∧
      dyntexShow s lay = some { s with dyntexs := s.dyntexs.set lay { tex with hidden := false } }) := by
  constructor
  · intro hle
    constructor
    · simp [dyntexHide, List.getElem?_eq_none hle]
    · simp [dyntexShow, List.getElem?_eq_none hle]
  · intro tex hget
    constructor
    · simp [dyntexHide, hget]
    · simp [dyntexShow, hget]

/-- C10 witness: id 1 is past the one-layer collection and panics; id 0 only
toggles the hidden flag. -/
theorem hide_show_unchecked_indexing_witness :
    (dyntexHide exState 1 = none ∧ dyntexShow exState 1 = none) ∧
    (dyntexHide exState 0 = some { exState with dyntexs := exState.dyntexs.set 0 { exTex with hidden := true } } ∧
      dyntexShow exState 0 = some { exState with dyntexs := exState.dyntexs.set 0 { exTex with hidden := false } }) :=
  ⟨(hide_show_unchecked_indexing exState 1).1 (by decide),
   (hide_show_unchecked_indexing exState 0).2 exTex rfl⟩

/-- What the `chunks_mut(40)` walk of `sprite_translate_all` does to a buffer
whose length is a multiple of one vertex record (10 words): it succeeds and
adds the delta to words 5 and 6 of every 10-word chunk. -/
theorem chunksGo_transl :
    ∀ (fuel : Nat) (buf : List Word) (fadd : Word → Word → Word) (dx dy : Word),
      buf.length ≤ fuel → buf.length % 10 = 0 →
      ∃ out, chunksGo (translChunk fadd dx dy) fuel buf = some out ∧
        out.length = buf.length ∧
        ∀ i w, buf[i]? = some w →
          out[i]? = some (if i % 10 = 5 then fadd w dx
            else if i % 10 = 6 then fadd w dy else w) := by
  intro fuel
  induction fuel with
  | zero =>
    intro buf fadd dx dy hle hmod
    have hb : buf = [] := List.eq_nil_of_length_eq_zero (Nat.le_zero.mp hle)
    subst hb
    exact ⟨[], rfl, rfl, fun i w h => by simp at h⟩
  | succ fuel ih =>
    intro buf fadd dx dy hle hmod
    cases buf with
    | nil => exact ⟨[], rfl, rfl, fun i w h => by simp at h⟩
    | cons a rest0 =>
      have hlen10 : 10 ≤ (a :: rest0).length := by
        have h0 : (a :: rest0).length ≠ 0 := by simp
        omega
      have hchunk : (List.take 10 (a :: rest0)).length = 10 := by
        rw [List.length_take]
        omega
      have hdlen : (List.drop 10 (a :: rest0)).length = (a :: rest0).length - 10 :=
        List.length_drop 10 _
      obtain ⟨out1, hout1, hlen1, hcont1⟩ := ih (List.drop 10 (a :: rest0)) fadd dx dy
        (by rw [hdlen]; omega) (by rw [hdlen]; omega)
      have h7le : 7 ≤ (List.take 10 (a :: rest0)).length := by
        rw [hchunk]
        omega
      have htc : translChunk fadd dx dy (List.take 10 (a :: rest0)) =
          some (((List.take 10 (a :: rest0)).set 5
              (fadd ((List.take 10 (a :: rest0)).getD 5 0) dx)).set 6
              (fadd ((List.take 10 (a :: rest0)).getD 6 0) dy)) := by
        simp only [translChunk, if_pos h7le]
      have hc2len : (((List.take 10 (a :: rest0)).set 5
          (fadd ((List.take 10 (a :: rest0)).getD 5 0) dx)).set 6
          (fadd ((List.take 10 (a :: rest0)).getD 6 0) dy)).length = 10 := by
        rw [List.length_set, List.length_set, hchunk]
      have hstep : chunksGo (translChunk fadd dx dy) (fuel + 1) (a :: rest0) =
          some ((((List.take 10 (a :: rest0)).set 5
              (fadd ((List.take 10 (a :: rest0)).getD 5 0) dx)).set 6
              (fadd ((List.take 10 (a :: rest0)).getD 6 0) dy)) ++ out1) := by
        simp only [chunksGo]
        rw [htc, hout1]
      refine ⟨_, hstep, ?_, ?_⟩
      · rw [List.length_append, hc2len, hlen1, hdlen]
        omega
      · intro i w hw
        have hilen : i < (a :: rest0).length := (List.getElem?_eq_some.mp hw).1
        by_cases hi : i < 10
        · have hilt : i < (((List.take 10 (a :: rest0)).set 5
              (fadd ((List.take 10 (a :: rest0)).getD 5 0) dx)).set 6
              (fadd ((List.take 10 (a :: rest0)).getD 6 0) dy)).length := by
            rw [hc2len]
            omega
          have happ : ((((List.take 10 (a :: rest0)).set 5
              (fadd ((List.take 10 (a :: rest0)).getD 5 0) dx)).set 6
              (fadd ((List.take 10 (a :: rest0)).getD 6 0) dy)) ++ out1)[i]? =
              (((List.take 10 (a :: rest0)).set 5
              (fadd ((List.take 10 (a :: rest0)).getD 5 0) dx)).set 6
              (fadd ((List.take 10 (a :: rest0)).getD 6 0) dy))[i]? := by
            rw [List.getElem?_append, if_pos hilt]
          have hcw : (List.take 10 (a :: rest0))[i]? = some w := by
            rw [List.getElem?_take]
            simp [hi, hw]
          rw [happ]
          by_cases h5 : i = 5
          · subst h5
            rw [List.getElem?_set_ne (by omega), List.getElem?_set_self (by rw [hchunk]; omega)]
            have hgd : (List.take 10 (a :: rest0)).getD 5 0 = w := by
              rw [List.getD_eq_getElem?_getD, hcw]
              rfl
            rw [hgd]
            simp
          · by_cases h6 : i = 6
            · subst h6
              rw [List.getElem?_set_self (by rw [List.length_set, hchunk]; omega)]
              have hgd : (List.take 10 (a :: rest0)).getD 6 0 = w := by
                rw [List.getD_eq_getElem?_getD, hcw]
                rfl
              rw [hgd]
              simp
            · rw [List.getElem?_set_ne (by omega), List.getElem?_set_ne (by omega), hcw]
              have hm5 : ¬ i % 10 = 5 := by omega
              have hm6 : ¬ i % 10 = 6 := by omega
              simp [hm5, hm6]
        · have happ : ((((List.take 10 (a :: rest0)).set 5
              (fadd ((List.take 10 (a :: rest0)).getD 5 0) dx)).set 6
              (fadd ((List.take 10 (a :: rest0)).getD 6 0) dy)) ++ out1)[i]? =
              out1[i - 10]? := by
            rw [List.getElem?_append_right (by rw [hc2len]; omega), hc2len]
          have hdw : (List.drop 10 (a :: rest0))[i - 10]? = some w := by
            rw [List.getElem?_drop]
            have : 10 + (i - 10) = i := by omega
            rw [this]
            exact hw
          rw [happ, hcont1 (i - 10) w hdw]
          have hm5 : (i - 10) % 10 = i % 10 := by omega
          rw [hm5]

/-- What the `chunks_mut(40)` walk of `sprite_rotate_all` does to a buffer
whose length is a multiple of 10 words: it succeeds and adds the delta to
word 7 of every 10-word chunk. -/
theorem chunksGo_rot :
    ∀ (fuel : Nat) (buf : List Word) (fadd : Word → Word → Word) (d : Word),
      buf.length ≤ fuel → buf.length % 10 = 0 →
      ∃ out, chunksGo (rotChunk fadd d) fuel buf = some out ∧
        out.length = buf.length ∧
        ∀ i w, buf[i]? = some w →
          out[i]? = some (if i % 10 = 7 then fadd w d else w) := by
  intro fuel
  induction fuel with
  | zero =>
    intro buf fadd d hle hmod
    have hb : buf = [] := List.eq_nil_of_length_eq_zero (Nat.le_zero.mp hle)
    subst hb
    exact ⟨[], rfl, rfl, fun i w h => by simp at h⟩
  | succ fuel ih =>
    intro buf fadd d hle hmod
    cases buf with
    | nil => exact ⟨[], rfl, rfl, fun i w h => by simp at h⟩
    | cons a rest0 =>
      have hlen10 : 10 ≤ (a :: rest0).length := by
        have h0 : (a :: rest0).length ≠ 0 := by simp
        omega
      have hchunk : (List.take 10 (a :: rest0)).length = 10 := by
        rw [List.length_take]
        omega
      have hdlen : (List.drop 10 (a :: rest0)).length = (a :: rest0).length - 10 :=
        List.length_drop 10 _
      obtain ⟨out1, hout1, hlen1, hcont1⟩ := ih (List.drop 10 (a :: rest0)) fadd d
        (by rw [hdlen]; omega) (by rw [hdlen]; omega)
      have h8le : 8 ≤ (List.take 10 (a :: rest0)).length := by
        rw [hchunk]
        omega
      have htc : rotChunk fadd d (List.take 10 (a :: rest0)) =
          some ((List.take 10 (a :: rest0)).set 7
              (fadd ((List.take 10 (a :: rest0)).getD 7 0) d)) := by
        simp only [rotChunk, if_pos h8le]
      have hc2len : ((List.take 10 (a :: rest0)).set 7
          (fadd ((List.take 10 (a :: rest0)).getD 7 0) d)).length = 10 := by
        rw [List.length_set, hchunk]
      have hstep : chunksGo (rotChunk fadd d) (fuel + 1) (a :: rest0) =
          some (((List.take 10 (a :: rest0)).set 7
              (fadd ((List.take 10 (a :: rest0)).getD 7 0) d)) ++ out1) := by
        simp only [chunksGo]
        rw [htc, hout1]
      refine ⟨_, hstep, ?_, ?_⟩
      · rw [List.length_append, hc2len, hlen1, hdlen]
        omega
      · intro i w hw
        have hilen : i < (a :: rest0).length := (List.getElem?_eq_some.mp hw).1
        by_cases hi : i < 10
        · have hilt : i < ((List.take 10 (a :: rest0)).set 7
              (fadd ((List.take 10 (a :: rest0)).getD 7 0) d)).length := by
            rw [hc2len]
            omega
          have happ : (((List.take 10 (a :: rest0)).set 7
              (fadd ((List.take 10 (a :: rest0)).getD 7 0) d)) ++ out1)[i]? =
              ((List.take 10 (a :: rest0)).set 7
              (fadd ((List.take 10 (a :: rest0)).getD 7 0) d))[i]? := by
            rw [List.getElem?_append, if_pos hilt]
          have hcw : (List.take 10 (a :: rest0))[i]? = some w := by
            rw [List.getElem?_take]
            simp [hi, hw]
          rw [happ]
          by_cases h7 : i = 7
          · subst h7
            rw [List.getElem?_set_self (by rw [hchunk]; omega)]
            have hgd : (List.take 10 (a :: rest0)).getD 7 0 = w := by
              rw [List.getD_eq_getElem?_getD, hcw]
              rfl
            rw [hgd]
            simp
          · rw [List.getElem?_set_ne (by omega), hcw]
            have hm7 : ¬ i % 10 = 7 := by omega
            simp [hm7]
        · have happ : (((List.take 10 (a :: rest0)).set 7
              (fadd ((List.take 10 (a :: rest0)).getD 7 0) d)) ++ out1)[i]? =
              out1[i - 10]? := by
            rw [List.getElem?_append_right (by rw [hc2len]; omega), hc2len]
          have hdw : (List.drop 10 (a :: rest0))[i - 10]? = some w := by
            rw [List.getElem?_drop]
            have h10 : 10 + (i - 10) = i := by omega
            rw [h10]
            exact hw
          rw [happ, hcont1 (i - 10) w hdw]
          have hm7 : (i - 10) % 10 = i % 10 := by omega
          rw [hm7]

/-- C8: `sprite_translate_all` (resp. `sprite_rotate_all`) on an existing
layer adds the delta to the translation words 5 and 6 (resp. rotation word 7)
of EVERY 10-word vertex record present in the host buffer, in one pass —
including records of logically removed slots, which are still touched. -/
theorem bulk_update_touches_all_slots (fops : FOps) (s : VxState) (lay : Nat)
    (dxdy : Word × Word) (deg : Word) (tex : SingleTexture)
    (hget : s.dyntexs[lay]? = some tex)
    (hmod : tex.mockbuffer.length % 10 = 0) :
    (∃ out, dyntexSpriteTranslateAll fops s lay dxdy =
        some { s with dyntexs := s.dyntexs.set lay { tex with mockbuffer := out } } ∧
      out.length = tex.mockbuffer.length ∧
      ∀ i w, tex.mockbuffer[i]? = some w →
        out[i]? = some (if i % 10 = 5 then fops.fadd w dxdy.1
          else if i % 10 = 6 then fops.fadd w dxdy.2 else w)) ∧
    (∃ out, dyntexSpriteRotateAll fops s lay deg =
        some { s with dyntexs := s.dyntexs.set lay { tex with mockbuffer := out } } ∧
      out.length = tex.mockbuffer.length ∧
      ∀ i w, tex.mockbuffer[i]? = some w →
        out[i]? = some (if i % 10 = 7 then fops.fadd w deg else w)) := by
  constructor
  · obtain ⟨out, hout, hlen, hcont⟩ :=
      chunksGo_transl tex.mockbuffer.length tex.mockbuffer fops.fadd dxdy.1 dxdy.2
        (Nat.le_refl _) hmod
    refine ⟨out, ?_, hlen, hcont⟩
    simp only [dyntexSpriteTranslateAll, hget, chunksAll]
    rw [hout]
  · obtain ⟨out, hout, hlen, hcont⟩ :=
      chunksGo_rot tex.mockbuffer.length tex.mockbuffer fops.fadd deg
        (Nat.le_refl _) hmod
    refine ⟨out, ?_, hlen, hcont⟩
    simp only [dyntexSpriteRotateAll, hget, chunksAll]
    rw [hout]

/-- C8 witness: on the two-record layer whose slot 0 is logically removed,
both bulk updates touch all 8 vertex records, removed slot included. -/
theorem bulk_update_touches_all_slots_witness :
    (∃ out, dyntexSpriteTranslateAll exFops exState2 1 (3, 4) =
        some { exState2 with dyntexs := exState2.dyntexs.set 1 { exTex2 with mockbuffer := out } } ∧
      out.length = exTex2.mockbuffer.length ∧
      ∀ i w, exTex2.mockbuffer[i]? = some w →
        out[i]? = some (if i % 10 = 5 then exFops.fadd w 3
          else if i % 10 = 6 then exFops.fadd w 4 else w)) ∧
    (∃ out, dyntexSpriteRotateAll exFops exState2 1 5 =
        some { exState2 with dyntexs := exState2.dyntexs.set 1 { exTex2 with mockbuffer := out } } ∧
      out.length = exTex2.mockbuffer.length ∧
      ∀ i w, exTex2.mockbuffer[i]? = some w →
        out[i]? = some (if i % 10 = 7 then exFops.fadd w 5 else w)) :=
  bulk_update_touches_all_slots exFops exState2 1 (3, 4) 5 exTex2 rfl (by decide)

/-! Laws of the `set_uvs` batch loop. -/

theorem uvWrites_fst {base : Nat} {b0 b1 e0 e1 : Word} {p : Nat × Word}
    (hp : p ∈ uvWrites base b0 b1 e0 e1) : base ≤ p.1 ∧ p.1 < base + 40 := by
  simp only [uvWrites, List.mem_cons, List.not_mem_nil, or_false] at hp
  rcases hp with rfl | rfl | rfl | rfl | rfl | rfl | rfl | rfl <;>
    exact ⟨by simp, by simp⟩

theorem uvWrites_pattern {buf b : List Word} {sl : Nat} {ub ue : Word × Word}
    (hw : setWords buf (uvWrites (sl * 40) ub.1 ub.2 ue.1 ue.2) = some b) :
    UvPattern b sl ub ue := by
  refine ⟨?_, ?_, ?_, ?_, ?_, ?_, ?_, ?_⟩
  · exact setWords_get_last [] _ _ _ _ _ hw (by
      intro p hp
      simp only [List.mem_cons, List.not_mem_nil, or_false] at hp
      rcases hp with rfl | rfl | rfl | rfl | rfl | rfl | rfl <;> simp
      all_goals omega)
  · exact setWords_get_last [(sl * 40 + 3, ub.1)] _ _ _ _ _ hw (by
      intro p hp
      simp only [List.mem_cons, List.not_mem_nil, or_false] at hp
      rcases hp with rfl | rfl | rfl | rfl | rfl | rfl <;> simp
      all_goals omega)
  · exact setWords_get_last [(sl * 40 + 3, ub.1), (sl * 40 + 4, ub.2)] _ _ _ _ _ hw (by
      intro p hp
      simp only [List.mem_cons, List.not_mem_nil, or_false] at hp
      rcases hp with rfl | rfl | rfl | rfl | rfl <;> simp
      all_goals omega)
  · exact setWords_get_last [(sl * 40 + 3, ub.1), (sl * 40 + 4, ub.2),
      (sl * 40 + 13, ub.1)] _ _ _ _ _ hw (by
      intro p hp
      simp only [List.mem_cons, List.not_mem_nil, or_false] at hp
      rcases hp with rfl | rfl | rfl | rfl <;> simp
      all_goals omega)
  · exact setWords_get_last [(sl * 40 + 3, ub.1), (sl * 40 + 4, ub.2),
      (sl * 40 + 13, ub.1), (sl * 40 + 14, ue.2)] _ _ _ _ _ hw (by
      intro p hp
      simp only [List.mem_cons, List.not_mem_nil, or_false] at hp
      rcases hp with rfl | rfl | rfl <;> simp
      all_goals omega)
  · exact setWords_get_last [(sl * 40 + 3, ub.1), (sl * 40 + 4, ub.2),
      (sl * 40 + 13, ub.1), (sl * 40 + 14, ue.2), (sl * 40 + 23, ue.1)] _ _ _ _ _ hw (by
      intro p hp
      simp only [List.mem_cons, List.not_mem_nil, or_false] at hp
      rcases hp with rfl | rfl <;> simp
      all_goals omega)
  · exact setWords_get_last [(sl * 40 + 3, ub.1), (sl * 40 + 4, ub.2),
      (sl * 40 + 13, ub.1), (sl * 40 + 14, ue.2), (sl * 40 + 23, ue.1),
      (sl * 40 + 24, ue.2)] _ _ _ _ _ hw (by
      intro p hp
      simp only [List.mem_cons, List.not_mem_nil, or_false] at hp
      rcases hp with rfl <;> simp
      all_goals omega)
  · exact setWords_get_last [(sl * 40 + 3, ub.1), (sl * 40 + 4, ub.2),
      (sl * 40 + 13, ub.1), (sl * 40 + 14, ue.2), (sl * 40 + 23, ue.1),
      (sl * 40 + 24, ue.2), (sl * 40 + 33, ue.1)] _ _ _ _ _ hw (by
      intro p hp
      exact (List.not_mem_nil p hp).elim)

theorem setUvsGo_mismatch :
    ∀ (entries : List (Handle × (Word × Word) × (Word × Word)))
      (cur cnt : Nat) (buf : List Word),
      (∃ e ∈ entries, e.1.layer ≠ cur) → setUvsGo cur cnt buf entries = none := by
  intro entries
  induction entries with
  | nil =>
    intro cur cnt buf hx
    obtain ⟨e, he, -⟩ := hx
    cases he
  | cons e0 rest ih =>
    intro cur cnt buf hx
    obtain ⟨h, ub, ue⟩ := e0
    by_cases hne : h.layer ≠ cur
    · simp only [setUvsGo, if_pos hne]
    · obtain ⟨e, he, hel⟩ := hx
      have hrest : ∃ e ∈ rest, e.1.layer ≠ cur := by
        rcases List.mem_cons.mp he with rfl | he2
        · exact absurd hel hne
        · exact ⟨e, he2, hel⟩
      simp only [setUvsGo, if_neg hne]
      by_cases hsl : h.slot < cnt
      · rw [if_pos hsl]
        cases hw : setWords buf (uvWrites (h.slot * 40) ub.1 ub.2 ue.1 ue.2) with
        | none => rfl
        | some b => exact ih cur cnt b hrest
      · rw [if_neg hsl]
        exact ih cur cnt buf hrest

theorem setUvsGo_total :
    ∀ (entries : List (Handle × (Word × Word) × (Word × Word)))
      (cur cnt : Nat) (buf : List Word),
      (∀ e ∈ entries, e.1.layer = cur) → 40 * cnt ≤ buf.length →
      ∃ out, setUvsGo cur cnt buf entries = some out ∧ out.length = buf.length := by
  intro entries
  induction entries with
  | nil => intro cur cnt buf _ _; exact ⟨buf, rfl, rfl⟩
  | cons e0 rest ih =>
    intro cur cnt buf hall hlen
    obtain ⟨h, ub, ue⟩ := e0
    have heq : h.layer = cur := hall (h, ub, ue) (List.mem_cons_self _ _)
    have hne : ¬ h.layer ≠ cur := by simp [heq]
    simp only [setUvsGo, if_neg hne]
    by_cases hsl : h.slot < cnt
    · rw [if_pos hsl]
      have hwb : ∀ p ∈ uvWrites (h.slot * 40) ub.1 ub.2 ue.1 ue.2,
          p.1 < buf.length := by
        intro p hp
        obtain ⟨h1, h2⟩ := uvWrites_fst hp
        omega
      obtain ⟨b, hb⟩ := setWords_total _ _ hwb
      obtain ⟨hblen, -⟩ := setWords_spec _ _ _ hb
      rw [hb]
      obtain ⟨out, hout, holen⟩ := ih cur cnt b
        (fun e he => hall e (List.mem_cons_of_mem _ he)) (by rw [hblen]; exact hlen)
      exact ⟨out, hout, by rw [holen, hblen]⟩
    · rw [if_neg hsl]
      exact ih cur cnt buf (fun e he => hall e (List.mem_cons_of_mem _ he)) hlen

theorem setUvsGo_keep :
    ∀ (entries : List (Handle × (Word × Word) × (Word × Word)))
      (cur cnt : Nat) (buf out : List Word) (sl : Nat),
      setUvsGo cur cnt buf entries = some out →
      (∀ e ∈ entries, e.1.slot ≠ sl) →
      ∀ j, sl * 40 ≤ j → j < sl * 40 + 40 → out[j]? = buf[j]? := by
  intro entries
  induction entries with
  | nil =>
    intro cur cnt buf out sl hrun _ j _ _
    simp only [setUvsGo] at hrun
    cases hrun
    rfl
  | cons e0 rest ih =>
    intro cur cnt buf out sl hrun hns j hj1 hj2
    obtain ⟨h, ub, ue⟩ := e0
    have hslne : h.slot ≠ sl := hns (h, ub, ue) (List.mem_cons_self _ _)
    by_cases hne : h.layer ≠ cur
    · simp only [setUvsGo, if_pos hne] at hrun
      exact Option.noConfusion hrun
    · simp only [setUvsGo, if_neg hne] at hrun
      by_cases hsl : h.slot < cnt
      · rw [if_pos hsl] at hrun
        cases hw : setWords buf (uvWrites (h.slot * 40) ub.1 ub.2 ue.1 ue.2) with
        | none =>
          rw [hw] at hrun
          exact Option.noConfusion hrun
        | some b =>
          rw [hw] at hrun
          have hb : b[j]? = buf[j]? := by
            refine setWords_get_ne _ _ _ _ hw ?_
            intro p hp
            obtain ⟨h1, h2⟩ := uvWrites_fst hp
            omega
          rw [ih cur cnt b out sl hrun (fun e he => hns e (List.mem_cons_of_mem _ he))
            j hj1 hj2, hb]
      · rw [if_neg hsl] at hrun
        exact ih cur cnt buf out sl hrun (fun e he => hns e (List.mem_cons_of_mem _ he))
          j hj1 hj2

theorem setUvsGo_get :
    ∀ (l1 : List (Handle × (Word × Word) × (Word × Word)))
      (cur cnt : Nat) (buf out : List Word)
      (e : Handle × (Word × Word) × (Word × Word))
      (l2 : List (Handle × (Word × Word) × (Word × Word))),
      setUvsGo cur cnt buf (l1 ++ e :: l2) = some out →
      e.1.layer = cur → e.1.slot < cnt →
      (∀ e2 ∈ l2, e2.1.slot ≠ e.1.slot) →
      UvPattern out e.1.slot e.2.1 e.2.2 := by
  intro l1
  induction l1 with
  | nil =>
    intro cur cnt buf out e l2 hrun heq hsl hns
    obtain ⟨h, ub, ue⟩ := e
    have heq2 : h.layer = cur := heq
    have hsl2 : h.slot < cnt := hsl
    have hns2 : ∀ e2 ∈ l2, e2.1.slot ≠ h.slot := hns
    show UvPattern out h.slot ub ue
    rw [List.nil_append] at hrun
    have hne : ¬ h.layer ≠ cur := by simp [heq2]
    simp only [setUvsGo, if_neg hne, if_pos hsl2] at hrun
    cases hw : setWords buf (uvWrites (h.slot * 40) ub.1 ub.2 ue.1 ue.2) with
    | none =>
      rw [hw] at hrun
      exact Option.noConfusion hrun
    | some b =>
      rw [hw] at hrun
      have hpat : UvPattern b h.slot ub ue := uvWrites_pattern hw
      have hkeep := setUvsGo_keep l2 cur cnt b out h.slot hrun hns2
      obtain ⟨p3, p4, p13, p14, p23, p24, p33, p34⟩ := hpat
      exact ⟨by rw [hkeep _ (by omega) (by omega)]; exact p3,
        by rw [hkeep _ (by omega) (by omega)]; exact p4,
        by rw [hkeep _ (by omega) (by omega)]; exact p13,
        by rw [hkeep _ (by omega) (by omega)]; exact p14,
        by rw [hkeep _ (by omega) (by omega)]; exact p23,
        by rw [hkeep _ (by omega) (by omega)]; exact p24,
        by rw [hkeep _ (by omega) (by omega)]; exact p33,
        by rw [hkeep _ (by omega) (by omega)]; exact p34⟩
  | cons e1 l1 ih =>
    intro cur cnt buf out e l2 hrun heq hsl hns
    obtain ⟨h1, ub1, ue1⟩ := e1
    rw [List.cons_append] at hrun
    by_cases hne : h1.layer ≠ cur
    · simp only [setUvsGo, if_pos hne] at hrun
      exact Option.noConfusion hrun
    · simp only [setUvsGo, if_neg hne] at hrun
      by_cases hsl1 : h1.slot < cnt
      · rw [if_pos hsl1] at hrun
        cases hw : setWords buf (uvWrites (h1.slot * 40) ub1.1 ub1.2 ue1.1 ue1.2) with
        | none =>
          rw [hw] at hrun
          exact Option.noConfusion hrun
        | some b =>
          rw [hw] at hrun
          exact ih cur cnt b out e l2 hrun heq hsl hns
      · rw [if_neg hsl1] at hrun
        exact ih cur cnt buf out e l2 hrun heq hsl hns

/-- C7 counterexample: the second entry's layer id (1) differs from the first
entry's (0), yet `set_uvs` does NOT panic — when the first entry's layer does
not exist the whole call silently returns (here on the empty state). -/
theorem set_uvs_missing_layer_no_panic_cex :
    dyntexSetUvs ⟨[], [], []⟩
      [(⟨0, 0⟩, (1, 1), (2, 2)), (⟨1, 0⟩, (1, 1), (2, 2))] = some ⟨[], [], []⟩ := by
  decide

/-- C7 amended: PROVIDED the first entry's layer exists, a later entry whose
layer id differs from the first entry's is a panic; when all entries share the
first entry's layer id the call returns normally and every in-range entry that
is not overwritten by a later entry for the same slot has its UV words
written.  (When the first entry's layer is missing the call is a silent
no-op, see the counterexample.) -/
theorem set_uvs_mismatch_panics (s : VxState)
    (first : Handle × (Word × Word) × (Word × Word))
    (rest : List (Handle × (Word × Word) × (Word × Word)))
    (tex : SingleTexture)
    (hget : s.dyntexs[first.1.layer]? = some tex) (hinv : ArenaInv tex) :
    ((∃ e ∈ rest, e.1.layer ≠ first.1.layer) →
      dyntexSetUvs s (first :: rest) = none) ∧
    ((∀ e ∈ rest, e.1.layer = first.1.layer) →
      ∃ out, dyntexSetUvs s (first :: rest) =
          some { s with dyntexs := s.dyntexs.set first.1.layer { tex with mockbuffer := out } } ∧
        out.length = tex.mockbuffer.length ∧
        (∀ l1 e l2, first :: rest = l1 ++ e :: l2 → e.1.slot < tex.count →
          (∀ e2 ∈ l2, e2.1.slot ≠ e.1.slot) →
          UvPattern out e.1.slot e.2.1 e.2.2)) := by
  obtain ⟨fh, fb, fe⟩ := first
  have hget2 : s.dyntexs[fh.layer]? = some tex := hget
  obtain ⟨hlen, -⟩ := hinv
  constructor
  · intro hmis
    have hmis2 : ∃ e ∈ rest, e.1.layer ≠ fh.layer := hmis
    simp only [dyntexSetUvs, hget2]
    by_cases hf : fh.slot < tex.count
    · rw [if_pos hf]
      have hwb : ∀ p ∈ uvWrites (fh.slot * 40) fb.1 fb.2 fe.1 fe.2,
          p.1 < tex.mockbuffer.length := by
        intro p hp
        obtain ⟨h1, h2⟩ := uvWrites_fst hp
        omega
      obtain ⟨buf0, hb⟩ := setWords_total _ _ hwb
      simp only [hb, setUvsGo_mismatch rest fh.layer tex.count buf0 hmis2]
    · simp only [if_neg hf,
        setUvsGo_mismatch rest fh.layer tex.count tex.mockbuffer hmis2]
  · intro hall
    have hall2 : ∀ e ∈ rest, e.1.layer = fh.layer := hall
    by_cases hf : fh.slot < tex.count
    · have hwb : ∀ p ∈ uvWrites (fh.slot * 40) fb.1 fb.2 fe.1 fe.2,
          p.1 < tex.mockbuffer.length := by
        intro p hp
        obtain ⟨h1, h2⟩ := uvWrites_fst hp
        omega
      obtain ⟨buf0, hb⟩ := setWords_total _ _ hwb
      obtain ⟨hb0len, -⟩ := setWords_spec _ _ _ hb
      obtain ⟨out, hout, holen⟩ := setUvsGo_total rest fh.layer tex.count buf0 hall2
        (by rw [hb0len]; omega)
      refine ⟨out, ?_, by rw [holen, hb0len], ?_⟩
      · simp only [dyntexSetUvs, hget2, if_pos hf, hb, hout]
      · intro l1 e l2 hsplit hslot hnol
        cases l1 with
        | nil =>
          rw [List.nil_append] at hsplit
          injection hsplit with h1 h2
          subst h1
          subst h2
          show UvPattern out fh.slot fb fe
          have hnol2 : ∀ e2 ∈ rest, e2.1.slot ≠ fh.slot := hnol
          have hpat : UvPattern buf0 fh.slot fb fe := uvWrites_pattern hb
          have hkeep := setUvsGo_keep rest fh.layer tex.count buf0 out fh.slot hout hnol2
          obtain ⟨p3, p4, p13, p14, p23, p24, p33, p34⟩ := hpat
          exact ⟨by rw [hkeep _ (by omega) (by omega)]; exact p3,
            by rw [hkeep _ (by omega) (by omega)]; exact p4,
            by rw [hkeep _ (by omega) (by omega)]; exact p13,
            by rw [hkeep _ (by omega) (by omega)]; exact p14,
            by rw [hkeep _ (by omega) (by omega)]; exact p23,
            by rw [hkeep _ (by omega) (by omega)]; exact p24,
            by rw [hkeep _ (by omega) (by omega)]; exact p33,
            by rw [hkeep _ (by omega) (by omega)]; exact p34⟩
        | cons e1 l1t =>
          rw [List.cons_append] at hsplit
          injection hsplit with h1 h2
          have hrest : rest = l1t ++ e :: l2 := h2
          have hmem : e ∈ rest := by
            rw [hrest]
            exact List.mem_append.mpr (Or.inr (List.mem_cons_self _ _))
          refine setUvsGo_get l1t fh.layer tex.count buf0 out e l2 ?_ (hall2 e hmem)
            hslot hnol
          rw [← hrest]
          exact hout
    · obtain ⟨out, hout, holen⟩ := setUvsGo_total rest fh.layer tex.count
        tex.mockbuffer hall2 (by omega)
      refine ⟨out, ?_, holen, ?_⟩
      · simp only [dyntexSetUvs, hget2, if_neg hf, hout]
      · intro l1 e l2 hsplit hslot hnol
        cases l1 with
        | nil =>
          rw [List.nil_append] at hsplit
          injection hsplit with h1 h2
          subst h1
          exact absurd hslot hf
        | cons e1 l1t =>
          rw [List.cons_append] at hsplit
          injection hsplit with h1 h2
          have hrest : rest = l1t ++ e :: l2 := h2
          have hmem : e ∈ rest := by
            rw [hrest]
            exact List.mem_append.mpr (Or.inr (List.mem_cons_self _ _))
          refine setUvsGo_get l1t fh.layer tex.count tex.mockbuffer out e l2 ?_
            (hall2 e hmem) hslot hnol
          rw [← hrest]
          exact hout

/-- C7 amended witness: a mismatched second entry panics on the live one-layer
state; a single-entry batch on the same state succeeds and writes the entry's
UV words. -/
theorem set_uvs_mismatch_panics_witness :
    dyntexSetUvs exState [(⟨0, 0⟩, (1, 2), (3, 4)), (⟨1, 0⟩, (0, 0), (0, 0))] = none ∧
    (∃ out, dyntexSetUvs exState [(⟨0, 0⟩, (1, 2), (3, 4))] =
        some { exState with dyntexs := exState.dyntexs.set 0 { exTex with mockbuffer := out } } ∧
      out.length = exTex.mockbuffer.length ∧
      (∀ l1 e l2, [((⟨0, 0⟩ : Handle), ((1 : Word), (2 : Word)), ((3 : Word), (4 : Word)))] = l1 ++ e :: l2 →
        e.1.slot < exTex.count →
        (∀ e2 ∈ l2, e2.1.slot ≠ e.1.slot) →
        UvPattern out e.1.slot e.2.1 e.2.2)) :=
  ⟨(set_uvs_mismatch_panics exState (⟨0, 0⟩, (1, 2), (3, 4))
      [(⟨1, 0⟩, (0, 0), (0, 0))] exTex rfl ⟨by decide, by decide⟩).1
      ⟨(⟨1, 0⟩, (0, 0), (0, 0)), List.mem_cons_self _ _, by decide⟩,
   (set_uvs_mismatch_panics exState (⟨0, 0⟩, (1, 2), (3, 4)) [] exTex rfl
      ⟨by decide, by decide⟩).2 (fun e he => absurd he (List.not_mem_nil e))⟩

/-! Laws of the draw-order walk. -/

theorem frameSync_append (cur : Nat) :
    ∀ (l1 l2 : List DrawType) (fs : FrameState),
      frameSync cur (l1 ++ l2) fs = (frameSync cur l1 fs).bind (frameSync cur l2) := by
  intro l1
  induction l1 with
  | nil => intro l2 fs; rfl
  | cons d l1 ih =>
    intro l2 fs
    rw [List.cons_append]
    simp only [frameSync]
    cases hds : drawStep cur fs d with
    | none => rfl
    | some fs1 => exact ih l2 fs1

theorem drawStep_dyn_keep {cur : Nat} {fs fs2 : FrameState} {d : DrawType} {id : Nat}
    (h : drawStep cur fs d = some fs2) (hne : d ≠ DrawType.DynamicTexture id) :
    fs2.dyntexs[id]? = fs.dyntexs[id]? := by
  cases d with
  | Text i =>
    simp only [drawStep] at h
    cases hg : fs.texts[i]? with
    | none =>
      rw [hg] at h
      exact Option.noConfusion h
    | some t =>
      rw [hg] at h
      cases h
      rfl
  | StreamingTexture i =>
    simp only [drawStep] at h
    cases hg : fs.strtexs[i]? with
    | none =>
      rw [hg] at h
      exact Option.noConfusion h
    | some t =>
      rw [hg] at h
      cases h
      rfl
  | DynamicTexture i =>
    have hii : i ≠ id := fun hc => hne (by rw [hc])
    simp only [drawStep] at h
    cases hg : fs.dyntexs[i]? with
    | none =>
      rw [hg] at h
      exact Option.noConfusion h
    | some t =>
      rw [hg] at h
      cases h
      exact List.getElem?_set_ne hii
  | Quad i =>
    simp only [drawStep] at h
    cases hg : fs.quads[i]? with
    | none =>
      rw [hg] at h
      cases h
      rfl
    | some q =>
      rw [hg] at h
      cases h
      rfl

theorem drawStep_quad_keep {cur : Nat} {fs fs2 : FrameState} {d : DrawType} {id : Nat}
    (h : drawStep cur fs d = some fs2) (hne : d ≠ DrawType.Quad id) :
    fs2.quads[id]? = fs.quads[id]? := by
  cases d with
  | Text i =>
    simp only [drawStep] at h
    cases hg : fs.texts[i]? with
    | none =>
      rw [hg] at h
      exact Option.noConfusion h
    | some t =>
      rw [hg] at h
      cases h
      rfl
  | StreamingTexture i =>
    simp only [drawStep] at h
    cases hg : fs.strtexs[i]? with
    | none =>
      rw [hg] at h
      exact Option.noConfusion h
    | some t =>
      rw [hg] at h
      cases h
      rfl
  | DynamicTexture i =>
    simp only [drawStep] at h
    cases hg : fs.dyntexs[i]? with
    | none =>
      rw [hg] at h
      exact Option.noConfusion h
    | some t =>
      rw [hg] at h
      cases h
      rfl
  | Quad i =>
    have hii : i ≠ id := fun hc => hne (by rw [hc])
    simp only [drawStep] at h
    cases hg : fs.quads[i]? with
    | none =>
      rw [hg] at h
      cases h
      rfl
    | some q =>
      rw [hg] at h
      cases h
      exact List.getElem?_set_ne hii

theorem frameSync_dyn_keep {cur id : Nat} :
    ∀ (l : List DrawType) (fs fs2 : FrameState),
      frameSync cur l fs = some fs2 → DrawType.DynamicTexture id ∉ l →
      fs2.dyntexs[id]? = fs.dyntexs[id]? := by
  intro l
  induction l with
  | nil =>
    intro fs fs2 h _
    simp only [frameSync] at h
    cases h
    rfl
  | cons d rest ih =>
    intro fs fs2 h hnin
    simp only [frameSync] at h
    cases hds : drawStep cur fs d with
    | none =>
      rw [hds] at h
      exact Option.noConfusion h
    | some fs1 =>
      rw [hds] at h
      have hne : d ≠ DrawType.DynamicTexture id := fun hc =>
        hnin (by rw [hc] at *; exact List.mem_cons_self _ _)
      rw [ih fs1 fs2 h (fun hm => hnin (List.mem_cons_of_mem _ hm)),
        drawStep_dyn_keep hds hne]

theorem frameSync_quad_keep {cur id : Nat} :
    ∀ (l : List DrawType) (fs fs2 : FrameState),
      frameSync cur l fs = some fs2 → DrawType.Quad id ∉ l →
      fs2.quads[id]? = fs.quads[id]? := by
  intro l
  induction l with
  | nil =>
    intro fs fs2 h _
    simp only [frameSync] at h
    cases h
    rfl
  | cons d rest ih =>
    intro fs fs2 h hnin
    simp only [frameSync] at h
    cases hds : drawStep cur fs d with
    | none =>
      rw [hds] at h
      exact Option.noConfusion h
    | some fs1 =>
      rw [hds] at h
      have hne : d ≠ DrawType.Quad id := fun hc =>
        hnin (by rw [hc] at *; exact List.mem_cons_self _ _)
      rw [ih fs1 fs2 h (fun hm => hnin (List.mem_cons_of_mem _ hm)),
        drawStep_quad_keep hds hne]

theorem syncStream_spec (cur : Nat) (st : AttrStream) (hok : StreamOk cur st) :
    StreamSync cur st (syncStream cur st) := by
  unfold StreamSync
  constructor
  · intro ht
    refine ⟨?_, ?_, ?_⟩
    · simp only [syncStream, if_pos ht]
    · simp only [syncStream, if_pos ht]
    · simp only [syncStream, if_pos ht]
      exact List.getElem?_set_self hok
  · intro ht
    have hnt : ¬ st.touch ≠ 0 := by simp [ht]
    simp only [syncStream, if_neg hnt]

/-- C1: during one draw-frame walk, for a visible dyntex layer (resp. quad
layer) visited exactly once in Draw-Order List order, every attribute stream
whose touch counter is nonzero has its host buffer copied into the current
in-flight GPU buffer and its counter decremented by exactly 1, while every
stream with a zero counter is left entirely unchanged. -/
theorem draw_frame_touch_counter_sync :
    (∀ (fs fs2 : FrameState) (l1 l2 : List DrawType) (id : Nat) (t : TexLayer),
      fs.draw_order = l1 ++ DrawType.DynamicTexture id :: l2 →
      DrawType.DynamicTexture id ∉ l1 → DrawType.DynamicTexture id ∉ l2 →
      fs.dyntexs[id]? = some t → t.hidden = false →
      TexLayerOk fs.current_frame t →
      drawFrameSync fs = some fs2 →
      ∃ t2, fs2.dyntexs[id]? = some t2 ∧ t2.hidden = false ∧
        StreamSync fs.current_frame t.posbuf t2.posbuf ∧
        StreamSync fs.current_frame t.opacbuf t2.opacbuf ∧
        StreamSync fs.current_frame t.uvbuf t2.uvbuf ∧
        StreamSync fs.current_frame t.tranbuf t2.tranbuf ∧
        StreamSync fs.current_frame t.rotbuf t2.rotbuf ∧
        StreamSync fs.current_frame t.scalebuf t2.scalebuf) ∧
    (∀ (fs fs2 : FrameState) (l1 l2 : List DrawType) (id : Nat) (q : QuadLayer),
      fs.draw_order = l1 ++ DrawType.Quad id :: l2 →
      DrawType.Quad id ∉ l1 → DrawType.Quad id ∉ l2 →
      fs.quads[id]? = some q → q.hidden = false →
      QuadLayerOk fs.current_frame q →
      drawFrameSync fs = some fs2 →
      ∃ q2, fs2.quads[id]? = some q2 ∧ q2.hidden = false ∧
        StreamSync fs.current_frame q.posbuf q2.posbuf ∧
        StreamSync fs.current_frame q.colbuf q2.colbuf ∧
        StreamSync fs.current_frame q.tranbuf q2.tranbuf ∧
        StreamSync fs.current_frame q.rotbuf q2.rotbuf ∧
        StreamSync fs.current_frame q.scalebuf q2.scalebuf) := by
  constructor
  · intro fs fs2 l1 l2 id t horder hn1 hn2 hget hhid hok hrun
    unfold drawFrameSync at hrun
    rw [horder, frameSync_append] at hrun
    cases hA : frameSync fs.current_frame l1 fs with
    | none =>
      rw [hA] at hrun
      exact Option.noConfusion hrun
    | some fsA =>
      rw [hA, Option.some_bind] at hrun
      have hgetA : fsA.dyntexs[id]? = some t := by
        rw [frameSync_dyn_keep l1 fs fsA hA hn1]
        exact hget
      have hstep : drawStep fs.current_frame fsA (DrawType.DynamicTexture id) =
          some { fsA with dyntexs := fsA.dyntexs.set id (syncTexLayer fs.current_frame t) } := by
        simp only [drawStep, hgetA]
      simp only [frameSync, hstep] at hrun
      have hltA : id < fsA.dyntexs.length := (List.getElem?_eq_some.mp hgetA).1
      have hend : fs2.dyntexs[id]? = some (syncTexLayer fs.current_frame t) := by
        rw [frameSync_dyn_keep l2 _ fs2 hrun hn2]
        exact List.getElem?_set_self hltA
      obtain ⟨o1, o2, o3, o4, o5, o6⟩ := hok
      have hs : syncTexLayer fs.current_frame t =
          { hidden := t.hidden,
            posbuf := syncStream fs.current_frame t.posbuf,
            opacbuf := syncStream fs.current_frame t.opacbuf,
            uvbuf := syncStream fs.current_frame t.uvbuf,
            tranbuf := syncStream fs.current_frame t.tranbuf,
            rotbuf := syncStream fs.current_frame t.rotbuf,
            scalebuf := syncStream fs.current_frame t.scalebuf } := by
        simp [syncTexLayer, hhid]
      refine ⟨syncTexLayer fs.current_frame t, hend, ?_, ?_, ?_, ?_, ?_, ?_, ?_⟩
      · rw [hs]
        exact hhid
      · rw [hs]
        exact syncStream_spec _ _ o1
      · rw [hs]
        exact syncStream_spec _ _ o2
      · rw [hs]
        exact syncStream_spec _ _ o3
      · rw [hs]
        exact syncStream_spec _ _ o4
      · rw [hs]
        exact syncStream_spec _ _ o5
      · rw [hs]
        exact syncStream_spec _ _ o6
  · intro fs fs2 l1 l2 id q horder hn1 hn2 hget hhid hok hrun
    unfold drawFrameSync at hrun
    rw [horder, frameSync_append] at hrun
    cases hA : frameSync fs.current_frame l1 fs with
    | none =>
      rw [hA] at hrun
      exact Option.noConfusion hrun
    | some fsA =>
      rw [hA, Option.some_bind] at hrun
      have hgetA : fsA.quads[id]? = some q := by
        rw [frameSync_quad_keep l1 fs fsA hA hn1]
        exact hget
      have hstep : drawStep fs.current_frame fsA (DrawType.Quad id) =
          some { fsA with quads := fsA.quads.set id (syncQuadLayer fs.current_frame q) } := by
        simp only [drawStep, hgetA]
      simp only [frameSync, hstep] at hrun
      have hltA : id < fsA.quads.length := (List.getElem?_eq_some.mp hgetA).1
      have hend : fs2.quads[id]? = some (syncQuadLayer fs.current_frame q) := by
        rw [frameSync_quad_keep l2 _ fs2 hrun hn2]
        exact List.getElem?_set_self hltA
      obtain ⟨o1, o2, o3, o4, o5⟩ := hok
      have hs : syncQuadLayer fs.current_frame q =
          { hidden := q.hidden,
            posbuf := syncStream fs.current_frame q.posbuf,
            colbuf := syncStream fs.current_frame q.colbuf,
            tranbuf := syncStream fs.current_frame q.tranbuf,
            rotbuf := syncStream fs.current_frame q.rotbuf,
            scalebuf := syncStream fs.current_frame q.scalebuf } := by
        simp [syncQuadLayer, hhid]
      refine ⟨syncQuadLayer fs.current_frame q, hend, ?_, ?_, ?_, ?_, ?_, ?_⟩
      · rw [hs]
        exact hhid
      · rw [hs]
        exact syncStream_spec _ _ o1
      · rw [hs]
        exact syncStream_spec _ _ o2
      · rw [hs]
        exact syncStream_spec _ _ o3
      · rw [hs]
        exact syncStream_spec _ _ o4
      · rw [hs]
        exact syncStream_spec _ _ o5

/-- C1 witness: on a frame drawing one visible dyntex layer then one visible
quad layer, each with five touched streams (counter 1) and an untouched scale
stream, the walk produces `exFrame2`: touched streams uploaded into in-flight
buffer 0 and counters dropped to 0, the untouched stream unchanged. -/
theorem draw_frame_touch_counter_sync_witness :
    (∃ t2, exFrame2.dyntexs[(0 : Nat)]? = some t2 ∧ t2.hidden = false ∧
      StreamSync exFrame.current_frame exTexLayer.posbuf t2.posbuf ∧
      StreamSync exFrame.current_frame exTexLayer.opacbuf t2.opacbuf ∧
      StreamSync exFrame.current_frame exTexLayer.uvbuf t2.uvbuf ∧
      StreamSync exFrame.current_frame exTexLayer.tranbuf t2.tranbuf ∧
      StreamSync exFrame.current_frame exTexLayer.rotbuf t2.rotbuf ∧
      StreamSync exFrame.current_frame exTexLayer.scalebuf t2.scalebuf) ∧
    (∃ q2, exFrame2.quads[(0 : Nat)]? = some q2 ∧ q2.hidden = false ∧
      StreamSync exFrame.current_frame exQuadLayer.posbuf q2.posbuf ∧
      StreamSync exFrame.current_frame exQuadLayer.colbuf q2.colbuf ∧
      StreamSync exFrame.current_frame exQuadLayer.tranbuf q2.tranbuf ∧
      StreamSync exFrame.current_frame exQuadLayer.rotbuf q2.rotbuf ∧
      StreamSync exFrame.current_frame exQuadLayer.scalebuf q2.scalebuf) :=
  ⟨draw_frame_touch_counter_sync.1 exFrame exFrame2 [] [DrawType.Quad 0] 0 exTexLayer
      rfl (by decide) (by decide) rfl rfl
      ⟨Nat.one_pos, Nat.one_pos, Nat.one_pos, Nat.one_pos, Nat.one_pos, Nat.one_pos⟩
      (by decide),
   draw_frame_touch_counter_sync.2 exFrame exFrame2 [DrawType.DynamicTexture 0] [] 0
      exQuadLayer rfl (by decide) (by decide) rfl rfl
      ⟨Nat.one_pos, Nat.one_pos, Nat.one_pos, Nat.one_pos, Nat.one_pos⟩
      (by decide)⟩
